import Mathlib

/-!
Shallow embedding of the static-site build pipeline in `src/main.py`.

The pipeline's three stages are embedded as executable Lean functions:
front-matter parsing (`parse_front_matter`), the recursive data generator
(`generate_data`, with its helpers `generate_navigation_links` and
`generate_containers_markdown`), and the site renderer (`render_site`).

Modelling conventions:
* The YAML parser and the Markdown-to-HTML converter are black boxes in the
  source (external libraries); they are parameters `yp : String → Option Metadata`
  (`none` models a `yaml.YAMLError`; the `safe_load(...) or {}` fallback for a
  `None` result is the parser's business, so a parser returning an empty block
  maps it to `some []`) and `md : String → String`.
* Python dictionaries become association lists (`Metadata`); `d[k]` raising
  `KeyError` becomes an `Except PyErr` value; `d[k] = v` becomes `setKey`,
  which overwrites an existing binding in place or appends a new one.
* The file system is a finite tree (`FSEntry`); `os.listdir` order is the
  list order of a directory's entries.
* Exceptions abort the walk, but files and directories already written stay
  on disk; the walkers therefore return their partial output together with
  `Option PyErr` instead of discarding it.
* Python's stable in-place `list.sort` is embedded as `List.insertionSort`:
  for a total and transitive comparison the stable ascending sort of a list
  is unique, so the insertion sort produces the same list as Timsort.
-/

namespace SiteGen

/-- A YAML/JSON-style metadata value: the value space the front matter of
this repository actually uses (strings, booleans, integers, lists, null). -/
inductive Value where
  | null : Value
  | bool : Bool → Value
  | int : Int → Value
  | str : String → Value
  | list : List Value → Value

/-- A Python dictionary of front-matter metadata, as an association list
(first binding wins on lookup, as after Python insertion). -/
abbrev Metadata := List (String × Value)

/-- Python `d[k]` lookup, without the `KeyError` (that is `getKey`). -/
def lookupKey (m : Metadata) (k : String) : Option Value :=
  match m with
  | [] => none
  | (k', v) :: rest => if k' = k then some v else lookupKey rest k

/-- Python `d[k] = v`: overwrite the binding in place, or append it. -/
def setKey (m : Metadata) (k : String) (v : Value) : Metadata :=
  match m with
  | [] => [(k, v)]
  | (k', v') :: rest => if k' = k then (k, v) :: rest else (k', v') :: setKey rest k v

/-- Python exceptions raised by the pipeline. -/
inductive PyErr where
  | keyError (key : String)
  | isADirectoryError (path : String)
  | typeError (msg : String)
  | valueError (msg : String)

/-- Python `d[k]`: `KeyError` when the key is missing. -/
def getKey (m : Metadata) (k : String) : Except PyErr Value :=
  match lookupKey m k with
  | some v => .ok v
  | none => .error (.keyError k)

/-- Numeric view of a value: Python treats `bool` as the integers 0/1 for
`==` and `<`, so both constructors are numeric. -/
def numVal : Value → Option Int
  | .bool b => some (if b then 1 else 0)
  | .int n => some n
  | _ => none

mutual
/-- Python `==` on metadata values: numeric kinds compare numerically
(`1 == True` holds in Python), strings by content, lists elementwise. -/
def pyEq (a b : Value) : Bool :=
  match a, b with
  | .bool x, .bool y => x == y
  | .bool x, .int y => (if x then (1 : Int) else 0) == y
  | .int x, .bool y => x == (if y then (1 : Int) else 0)
  | .int x, .int y => x == y
  | .str x, .str y => x == y
  | .null, .null => true
  | .list xs, .list ys => pyEqList xs ys
  | _, _ => false

/-- Elementwise Python `==` on lists. -/
def pyEqList : List Value → List Value → Bool
  | [], [] => true
  | x :: xs, y :: ys => pyEq x y && pyEqList xs ys
  | _, _ => false
end

mutual
/-- Python `repr` of a value, as `str.format` shows list elements. -/
def pyRepr : Value → String
  | .null => "None"
  | .bool b => if b then "True" else "False"
  | .int n => toString n
  | .str s => "'" ++ s ++ "'"
  | .list xs => "[" ++ pyReprList xs ++ "]"

/-- Comma-joined `repr`s of list elements. -/
def pyReprList : List Value → String
  | [] => ""
  | [x] => pyRepr x
  | x :: xs => pyRepr x ++ ", " ++ pyReprList xs
end

/-- Python `str()` of a value, used by f-string interpolation and
`string.Template` substitution. -/
def pyStr : Value → String
  | .str s => s
  | v => pyRepr v

/-- Code-point comparison of character lists: Python's `str <=`. -/
def charListLe : List Char → List Char → Bool
  | [], _ => true
  | _ :: _, [] => false
  | a :: as, b :: bs =>
    if a.toNat < b.toNat then true
    else if b.toNat < a.toNat then false
    else charListLe as bs

/-- Python `str <=` (lexicographic by code point). -/
def strLe (a b : String) : Bool := charListLe a.data b.data

/-- Kind rank, used to totalise comparisons Python would refuse
(`TypeError` on e.g. `str < int`); on kinds Python can compare
(numeric/numeric, str/str) the order below is exactly Python's. -/
def Value.rank : Value → Nat
  | .null => 0
  | .bool _ => 1
  | .int _ => 1
  | .str _ => 2
  | .list _ => 3

/-- Total comparison on values: numeric kinds numerically (Python's
`True < 3`), strings lexicographically; other pairs — which Python's
sort would reject with `TypeError` — are ordered by kind rank so that
the comparison is total and transitive. -/
def Value.le (a b : Value) : Bool :=
  match numVal a, numVal b with
  | some x, some y => x ≤ y
  | _, _ =>
    match a, b with
    | .str x, .str y => strLe x y
    | .list _, .list _ => true
    | .null, .null => true
    | _, _ => Value.rank a ≤ Value.rank b

/-- JSON string escaping as `json.dumps` performs it for the characters
that occur here (quote, backslash, and common control characters;
other control characters are not used by the repository's data). -/
def jsonEscapeChar (c : Char) : String :=
  if c = '"' then "\\\"" else if c = '\\' then "\\\\"
  else if c = '\n' then "\\n" else if c = '\t' then "\\t"
  else if c = '\r' then "\\r" else String.mk [c]

/-- Escape every character of a string for JSON embedding. -/
def jsonEscape (s : String) : String := String.join (s.data.map jsonEscapeChar)

mutual
/-- `json.dumps` of a metadata value (default separators). -/
def jsonDumps : Value → String
  | .null => "null"
  | .bool b => if b then "true" else "false"
  | .int n => toString n
  | .str s => "\"" ++ jsonEscape s ++ "\""
  | .list xs => "[" ++ jsonDumpsList xs ++ "]"

/-- `json.dumps` of the elements of a list, comma-joined. -/
def jsonDumpsList : List Value → String
  | [] => ""
  | [x] => jsonDumps x
  | x :: xs => jsonDumps x ++ ", " ++ jsonDumpsList xs
end

/-! ### Front-matter parsing (`parse_front_matter`, main.py lines 10-25)

The source matches the regex `\A---\s*$(.*?)^\s*---\s*$(.*)` with
`MULTILINE | DOTALL`.  The embedding works at line granularity, which is
where the regex's anchors live: the document matches iff its first line is
`---` followed only by whitespace and some later line consists of optional
whitespace around `---`; group 1 is the text strictly between those two
lines and group 2 the text after the closing line.  (When blank lines abut
a delimiter the regex can shift them between the whitespace of `\s*$` and
the groups; since group 1 feeds a whitespace-insensitive YAML parser and
group 2 is `.strip()`ped, the observable results agree.) -/

/-- Split a character list at newline characters (Python line structure). -/
def splitLinesChars : List Char → List (List Char)
  | [] => [[]]
  | c :: rest =>
    if c = '\n' then [] :: splitLinesChars rest
    else
      match splitLinesChars rest with
      | l :: ls => (c :: l) :: ls
      | [] => [[c]]

/-- Rejoin lines with newlines (inverse of `splitLinesChars`). -/
def joinLinesChars : List (List Char) → List Char
  | [] => []
  | [l] => l
  | l :: ls => l ++ '\n' :: joinLinesChars ls

/-- Python `str.strip()` on a character list (whitespace both ends). -/
def stripChars (cs : List Char) : List Char :=
  ((cs.dropWhile Char.isWhitespace).reverse.dropWhile Char.isWhitespace).reverse

/-- A line matching the closing delimiter `^\s*---\s*$`: stripping edge
whitespace leaves exactly `---`. -/
def isDelimiterLine (l : List Char) : Bool :=
  stripChars l = ['-', '-', '-']

/-- The opening anchor `\A---\s*$`: the document's first line is `---`
plus optional trailing whitespace. -/
def isOpeningLine (l : List Char) : Bool :=
  "---".data.isPrefixOf l && (l.drop 3).all Char.isWhitespace

/-- Locate the front-matter block: `some (front matter text, text after
the closing delimiter)` when the regex matches, `none` otherwise. -/
def splitFrontMatter (text : String) : Option (String × String) :=
  match splitLinesChars text.data with
  | [] => none
  | l0 :: rest =>
    if isOpeningLine l0 then
      match rest.findIdx? isDelimiterLine with
      | none => none
      | some i =>
        some (String.mk (joinLinesChars (rest.take i)),
              String.mk (joinLinesChars (rest.drop (i + 1))))
    else none

/-- `parse_front_matter` (main.py lines 10-25): a matched block whose text
parses returns the mapping and the stripped remaining content; a matched
block whose text fails to parse warns and returns `({}, full text)`; an
unmatched document returns `({}, full text)`. -/
def parse_front_matter (yp : String → Option Metadata) (text : String) :
    Metadata × String :=
  match splitFrontMatter text with
  | some (fm, content) =>
    match yp fm with
    | some m => (m, String.mk (stripChars content.data))
    | none => ([], text)
  | none => ([], text)

/-! ### File-system model -/

/-- A source-tree entry: a file with text content or a subdirectory.
`os.listdir` order is the list order. -/
inductive FSEntry where
  | file (name : String) (content : String)
  | dir (name : String) (entries : List FSEntry)

/-- The `os.listdir` name of an entry. -/
def FSEntry.name : FSEntry → String
  | .file n _ => n
  | .dir n _ => n

/-- Python `str.endswith(suffix)`. -/
def strEndsWith (s suff : String) : Bool := suff.data.isSuffixOf s.data

/-- `filename.endswith(('.md', '.markdown'))`. -/
def isMdName (s : String) : Bool := strEndsWith s ".md" || strEndsWith s ".markdown"

/-- Index of the dot starting the extension for `os.path.splitext`: the
last dot preceded by some non-dot character of the name. -/
def lastExtDot (cs : List Char) : Option Nat :=
  (List.range cs.length).foldl
    (fun acc i =>
      if cs.getD i ' ' = '.' && (cs.take i).any (fun c => c ≠ '.') then some i
      else acc)
    none

/-- `os.path.splitext(s)[0]`. -/
def splitextBase (s : String) : String :=
  match lastExtDot s.data with
  | none => s
  | some i => String.mk (s.data.take i)

/-- `os.path.join(a, b)` on POSIX with a non-empty left component not
ending in a slash, the only shape the pipeline builds. -/
def pathJoin (a b : String) : String := a ++ "/" ++ b

/-- Split a character list at a separator character. -/
def splitOnChar (sep : Char) : List Char → List (List Char)
  | [] => [[]]
  | c :: rest =>
    if c = sep then [] :: splitOnChar sep rest
    else
      match splitOnChar sep rest with
      | l :: ls => (c :: l) :: ls
      | [] => [[c]]

/-- Walk a relative path given as slash-separated segments down a
directory listing; `none` when some segment is not a subdirectory
(`os.path.isdir` is false there). -/
def resolveSegs : List FSEntry → List (List Char) → Option (List FSEntry)
  | es, [] => some es
  | es, seg :: rest =>
    match es.findSome? (fun e =>
      match e with
      | .dir n sub => if n.data = seg then some sub else none
      | .file _ _ => none) with
    | some sub => resolveSegs sub rest
    | none => none

/-- Resolve `<dir>/<relpath>` inside the model: the listing of the
directory the path names, when it exists. -/
def resolvePath (es : List FSEntry) (p : String) : Option (List FSEntry) :=
  resolveSegs es (splitOnChar '/' p.data)

/-! ### Navigation Collector (`generate_navigation_links`, lines 56-79) -/

/-- One navigation entry (the dict built at lines 73-77). -/
structure NavLink where
  html_file : String
  page_name : Value
  page_order : Value

/-- The sort comparison `key=lambda item: item['page_order']` induces. -/
def navLE (a b : NavLink) : Bool := Value.le a.page_order b.page_order

/-- `navLE` as a decidable relation for `List.insertionSort`. -/
def navRel (a b : NavLink) : Prop := navLE a b = true

instance : DecidableRel navRel := fun a b => inferInstanceAs (Decidable (navLE a b = true))

/-- `Value.le` as a decidable relation for `List.insertionSort`. -/
def valRel (a b : Value) : Prop := Value.le a b = true

instance : DecidableRel valRel := fun a b => inferInstanceAs (Decidable (Value.le a b = true))

/-- The scan loop of `generate_navigation_links` (lines 58-77): for every
listing entry named like Markdown, open it (a directory so named raises
`IsADirectoryError`), parse front matter, read `title` and `navmenu`
unconditionally (bracket lookups: missing keys raise `KeyError`), and
append an entry only when `navmenu == True`; `navorder` is read only in
that case. -/
def navLoop (yp : String → Option Metadata) :
    List FSEntry → List NavLink → Except PyErr (List NavLink)
  | [], acc => .ok acc
  | e :: rest, acc =>
    if isMdName e.name then
      match e with
      | .dir n _ => .error (.isADirectoryError n)
      | .file n content =>
        let metadata := (parse_front_matter yp content).1
        match lookupKey metadata "title" with
        | none => .error (.keyError "title")
        | some page_name =>
          match lookupKey metadata "navmenu" with
          | none => .error (.keyError "navmenu")
          | some nm =>
            if pyEq nm (.bool true) then
              match lookupKey metadata "navorder" with
              | none => .error (.keyError "navorder")
              | some page_order =>
                navLoop yp rest
                  (acc ++ [{ html_file := splitextBase n ++ ".html",
                             page_name := page_name, page_order := page_order }])
            else navLoop yp rest acc
    else navLoop yp rest acc

/-- `generate_navigation_links` (lines 56-79): scan the listing appending
to the caller's list, then stably sort the whole list in place by
`page_order` and return it (the same, shared list object). -/
def generate_navigation_links (yp : String → Option Metadata)
    (entries : List FSEntry) (navigation_links_list : List NavLink) :
    Except PyErr (List NavLink) :=
  match navLoop yp entries navigation_links_list with
  | .ok l => .ok (List.insertionSort navRel l)
  | .error e => .error e

/-! ### Containers Assembler (`generate_containers_markdown`, lines 82-125) -/

/-- The synthetic first filter button (line 92), active by default. -/
def allFilterButton : String :=
  "\n\t\t\t\t<button class=\"filter-btn active\" data-filter=\"all\">All</button>"

/-- A group-tag filter button (line 121). -/
def mkFilterButton (g : Value) : String :=
  "\n\t\t\t\t<button class=\"filter-btn\" data-filter=\"" ++ pyStr g ++ "\">" ++
    pyStr g ++ "</button>"

/-- One item block of the grid (the f-string at line 117). -/
def mkContainerItem (groupsDq link image alttext title : String) : String :=
  "\n\t\t\t\t<div class='item' data-groups='" ++ groupsDq ++
    "'>\n\t\t\t\t\t<a href='" ++ link ++
    "'>\n\t\t\t\t\t\t<img src='" ++ image ++ "' alt='" ++ alttext ++
    "'  class='item_img'>\n\t\t\t\t\t\t<div class='item_overlay'>\n\t\t\t\t\t\t\t<div class='item_text'>\n\t\t\t\t\t\t\t\t<h3>" ++
    title ++ "</h3>\n\t\t\t\t\t\t\t\t<p>" ++ title ++
    "</p>\n\t\t\t\t\t\t\t</div>\n\t\t\t\t\t\t</div>\n\t\t\t\t\t</a>\n\t\t\t\t</div>"

/-- `container_group not in filter_groups` followed by `append` (lines
112-114): accumulate first occurrences, Python `in` comparing with `==`. -/
def dedupAppend (groups : List Value) (gs : List Value) : List Value :=
  gs.foldl (fun acc g => if acc.any (fun h => pyEq h g) then acc else acc ++ [g]) groups

/-- The fragment-scan loop (lines 95-117): for each Markdown fragment read
the five `container*` keys (bracket lookups, `KeyError` when missing),
merge its `containergroups` into the group set, and append its rendered
item block.  Iterating a non-list `containergroups` raises (`TypeError`
for non-iterables; a string value, which would iterate characterwise in
Python, does not occur in this repository's data and is mapped to the
same error). -/
def contLoop (yp : String → Option Metadata) :
    List FSEntry → List Value → List String →
    Except PyErr (List Value × List String)
  | [], groups, items => .ok (groups, items)
  | e :: rest, groups, items =>
    if isMdName e.name then
      match e with
      | .dir n _ => .error (.isADirectoryError n)
      | .file _ content =>
        let metadata := (parse_front_matter yp content).1
        match lookupKey metadata "containergroups" with
        | none => .error (.keyError "containergroups")
        | some cg =>
          match lookupKey metadata "containerimage" with
          | none => .error (.keyError "containerimage")
          | some image =>
            match lookupKey metadata "containeralttext" with
            | none => .error (.keyError "containeralttext")
            | some alttext =>
              match lookupKey metadata "containerlink" with
              | none => .error (.keyError "containerlink")
              | some link =>
                match lookupKey metadata "containertitle" with
                | none => .error (.keyError "containertitle")
                | some title =>
                  match cg with
                  | .list gs =>
                    contLoop yp rest (dedupAppend groups gs)
                      (items ++ [mkContainerItem (jsonDumps (.list gs)) (pyStr link)
                        (pyStr image) (pyStr alttext) (pyStr title)])
                  | _ => .error (.typeError "containergroups is not iterable")
    else contLoop yp rest groups items

/-- Assemble the combined markup string (lines 119-123): the filter-button
row — the synthetic All button followed by the sorted group buttons — then
the item grid. -/
def assembleContainers (groups : List Value) (items : List String) : String :=
  "\n\t\t\t<div class=\"filter-buttons\">" ++
    String.join (allFilterButton :: (List.insertionSort valRel groups).map mkFilterButton) ++
    "\n\t\t\t</div>" ++
    "\n\t\t\t<div class=\"items-container\">" ++ String.join items ++ "\n\t\t\t</div>"

/-- `generate_containers_markdown` (lines 82-125): `none` for the
containers directory means `os.path.isdir` failed — print an error and
return Python `None` (modelled `.ok none`); otherwise scan the fragments
and assemble the markup. -/
def generate_containers_markdown (yp : String → Option Metadata)
    (containersDir : Option (List FSEntry)) : Except PyErr (Option String) :=
  match containersDir with
  | none => .ok none
  | some es =>
    match contLoop yp es [] [] with
    | .ok (groups, items) => .ok (some (assembleContainers groups items))
    | .error e => .error e

/-! ### Data Generator (`generate_data`, lines 128-185)

Exceptions abort the walk but the files already written stay on disk, so
the walkers return the output accumulated so far paired with the
exception, instead of an `Except` that would discard it. -/

/-- Output of the Data Generator: the directories created and the JSON
page documents written, in write order. -/
structure GenOut where
  dirs : List String
  files : List (String × Metadata)

/-- Concatenate two outputs (later writes after earlier ones). -/
def GenOut.append (a b : GenOut) : GenOut := ⟨a.dirs ++ b.dirs, a.files ++ b.files⟩

/-- The navigation-HTML loop (lines 170-176): one anchor per entry of the
shared navigation list, marked active when its `page_name` equals this
page's `title` (a bracket lookup performed per iteration, so a missing
`title` only faults when the list is non-empty). -/
def navHtmlLoop (page_data : Metadata) (relRoot : String) :
    List NavLink → String → Except PyErr String
  | [], acc => .ok acc
  | l :: rest, acc =>
    match lookupKey page_data "title" with
    | none => .error (.keyError "title")
    | some t =>
      navHtmlLoop page_data relRoot rest
        (acc ++ "\n\t\t\t\t\t\t<li><a href=\"" ++ relRoot ++ l.html_file ++ "\"" ++
          (if pyEq l.page_name t then " class=\"active\"" else "") ++ ">" ++
          pyStr l.page_name ++ "</a></li>")

/-- The Markdown-file branch of the generator loop (lines 157-185):
parse front matter, convert the body (`md` is the black-box
`markdown.markdown`), attach `page_markdown` and `navigation_links`,
then — `page_data['layout']` being a bracket lookup — when the layout
equals `"containers"` resolve `<input_dir>/<containerspath>` against the
current directory listing and attach `containers_markdown` (Python `None`
from a missing directory becomes JSON null).  Returns the destination
path and the page document written there. -/
def processPage (yp : String → Option Metadata) (md : String → String)
    (full : List FSEntry) (json_dir : String) (nav : List NavLink)
    (relRoot : String) (n content : String) : Except PyErr (String × Metadata) :=
  let pm := parse_front_matter yp content
  let page_data := setKey pm.1 "page_markdown" (.str (md pm.2))
  match navHtmlLoop page_data relRoot nav "" with
  | .error e => .error e
  | .ok navigation_links =>
    let page_data := setKey page_data "navigation_links" (.str navigation_links)
    match lookupKey page_data "layout" with
    | none => .error (.keyError "layout")
    | some layout =>
      if pyEq layout (.str "containers") then
        match lookupKey page_data "containerspath" with
        | none => .error (.keyError "containerspath")
        | some (.str cps) =>
          match generate_containers_markdown yp (resolvePath full cps) with
          | .error e => .error e
          | .ok r =>
            .ok (pathJoin json_dir (splitextBase n ++ ".json"),
                 setKey page_data "containers_markdown"
                   (match r with | some s => .str s | none => .null))
        | some _ => .error (.typeError "can only concatenate str to str")
      else .ok (pathJoin json_dir (splitextBase n ++ ".json"), page_data)

mutual
/-- `generate_data` (lines 128-185): create the destination directory,
run the Navigation Collector over this level — appending to and re-sorting
the caller's shared navigation list — then walk the listing in order.
Returns (output written, final state of the shared navigation list,
uncaught exception if any). -/
def generate_data (yp : String → Option Metadata) (md : String → String)
    (es : List FSEntry) (json_dir : String) (nav : List NavLink)
    (relRoot : String) : GenOut × List NavLink × Option PyErr :=
  match generate_navigation_links yp es nav with
  | .error e => (⟨[json_dir], []⟩, nav, some e)
  | .ok nav' => genLoop yp md es es json_dir nav' relRoot ⟨[json_dir], []⟩

/-- The entry loop of `generate_data` (lines 144-185): a subdirectory is
recursed into with a deepened destination, the shared navigation list and
one more `../` on the relative-root prefix; then — the branches are not
exclusive — any entry named like Markdown is opened as a file (a
directory so named raises `IsADirectoryError`); other entries are
skipped.  `full` is the current directory's whole listing (`input_dir`),
against which a `containerspath` is resolved. -/
def genLoop (yp : String → Option Metadata) (md : String → String)
    (full : List FSEntry) :
    List FSEntry → String → List NavLink → String → GenOut →
    GenOut × List NavLink × Option PyErr
  | [], _, nav, _, acc => (acc, nav, none)
  | e :: rest, json_dir, nav, relRoot, acc =>
    match e with
    | .dir n sub =>
      let r := generate_data yp md sub (pathJoin json_dir n) nav (relRoot ++ "../")
      match r.2.2 with
      | some err => (acc.append r.1, r.2.1, some err)
      | none =>
        if isMdName n then
          (acc.append r.1, r.2.1, some (.isADirectoryError n))
        else
          genLoop yp md full rest json_dir r.2.1 relRoot (acc.append r.1)
    | .file n content =>
      if isMdName n then
        match processPage yp md full json_dir nav relRoot n content with
        | .ok wf => genLoop yp md full rest json_dir nav relRoot (acc.append ⟨[], [wf]⟩)
        | .error err => (acc, nav, some err)
      else genLoop yp md full rest json_dir nav relRoot acc
end

/-! ### Template substitution (`string.Template.substitute`)

`Template.substitute` resolves `$identifier` and `${identifier}` tokens
(identifier: ASCII `[_a-zA-Z][_a-zA-Z0-9]*`), `$$` as an escaped dollar;
a resolved key missing from the mapping raises `KeyError`, any other text
after `$` raises `ValueError` (invalid placeholder). -/

/-- First character of a template identifier. -/
def isIdStart (c : Char) : Bool := c = '_' || c.isAlpha

/-- Subsequent character of a template identifier. -/
def isIdChar (c : Char) : Bool := isIdStart c || c.isDigit

mutual
/-- Normal-mode scan: copy text, handing `$` to `dollarMode`. -/
def scanTemplate (pd : Metadata) : List Char → Except PyErr String
  | [] => .ok ""
  | '$' :: rest => dollarMode pd rest
  | c :: rest =>
    match scanTemplate pd rest with
    | .ok s => .ok (String.mk [c] ++ s)
    | .error e => .error e
termination_by cs => 3 * cs.length

/-- Just after a `$`: `$$` escapes, `${` opens a braced placeholder, an
identifier start opens a named placeholder, anything else is invalid. -/
def dollarMode (pd : Metadata) : List Char → Except PyErr String
  | [] => .error (.valueError "Invalid placeholder in string")
  | '$' :: rest =>
    match scanTemplate pd rest with
    | .ok s => .ok ("$" ++ s)
    | .error e => .error e
  | '{' :: rest =>
    match rest with
    | c :: rest' =>
      if isIdStart c then bracedMode pd c rest' ""
      else .error (.valueError "Invalid placeholder in string")
    | [] => .error (.valueError "Invalid placeholder in string")
  | c :: rest =>
    if isIdStart c then identMode pd c rest ""
    else .error (.valueError "Invalid placeholder in string")
termination_by cs => 3 * cs.length + 2

/-- Inside a braced placeholder, looking at character `c` with `rest`
still unread: collect identifier characters up to the closing brace,
then substitute `str()` of the looked-up value. -/
def bracedMode (pd : Metadata) (c : Char) : List Char → String → Except PyErr String
  | rest, ident =>
    if isIdChar c then
      match rest with
      | [] => .error (.valueError "Invalid placeholder in string")
      | c' :: rest' => bracedMode pd c' rest' (ident ++ String.mk [c])
    else if c = '}' then
      match lookupKey pd ident with
      | none => .error (.keyError ident)
      | some v =>
        match scanTemplate pd rest with
        | .ok s => .ok (pyStr v ++ s)
        | .error e => .error e
    else .error (.valueError "Invalid placeholder in string")
termination_by cs _ => 3 * cs.length + 4

/-- Inside a named placeholder, looking at character `c` with `rest`
still unread: collect the maximal identifier, then substitute `str()` of
the looked-up value and resume the scan at the first non-identifier
character. -/
def identMode (pd : Metadata) (c : Char) : List Char → String → Except PyErr String
  | rest, ident =>
    if isIdChar c then
      match rest with
      | [] =>
        match lookupKey pd (ident ++ String.mk [c]) with
        | none => .error (.keyError (ident ++ String.mk [c]))
        | some v => .ok (pyStr v)
      | c' :: rest' => identMode pd c' rest' (ident ++ String.mk [c])
    else
      match lookupKey pd ident with
      | none => .error (.keyError ident)
      | some v =>
        match scanTemplate pd (c :: rest) with
        | .ok s => .ok (pyStr v ++ s)
        | .error e => .error e
termination_by cs _ => 3 * cs.length + 4
end

/-- `Template(tmpl).substitute(pd)`. -/
def templateSubstitute (pd : Metadata) (tmpl : String) : Except PyErr String :=
  scanTemplate pd tmpl.data

/-! ### Site Renderer (`render_site`, lines 188-250) -/

/-- A JSON-tree entry: a page document (as `json.load` returns it) or a
subdirectory. -/
inductive JEntry where
  | file (name : String) (data : Metadata)
  | dir (name : String) (entries : List JEntry)

/-- The `os.listdir` name of a JSON-tree entry. -/
def JEntry.name : JEntry → String
  | .file n _ => n
  | .dir n _ => n

/-- Output of the Site Renderer: directories created and HTML files
written, in write order. -/
structure RenderOut where
  dirs : List String
  files : List (String × String)

/-- Concatenate two outputs (later writes after earlier ones). -/
def RenderOut.append (a b : RenderOut) : RenderOut := ⟨a.dirs ++ b.dirs, a.files ++ b.files⟩

/-- String-valued association-list lookup (the template directory). -/
def lookupStr (m : List (String × String)) (k : String) : Option String :=
  match m with
  | [] => none
  | (k', v) :: rest => if k' = k then some v else lookupStr rest k

/-- `page_data.get('layout', 'page') + '.html'` (line 226): absent layout
defaults to `"page"`; a present non-string layout makes the `+` raise
`TypeError`, which nothing catches. -/
def layoutTemplateName (pd : Metadata) : Except PyErr String :=
  match lookupKey pd "layout" with
  | none => .ok ("page" ++ ".html")
  | some (.str s) => .ok (s ++ ".html")
  | some _ => .error (.typeError "can only concatenate str to str")

/-- Lines 236-240: default `title` to `"Untitled"` and `page_markdown` to
the empty string when absent, then inject `ref_prefix`. -/
def withDefaults (pd : Metadata) (relRoot : String) : Metadata :=
  let pd1 := match lookupKey pd "title" with
    | none => setKey pd "title" (.str "Untitled")
    | some _ => pd
  let pd2 := match lookupKey pd1 "page_markdown" with
    | none => setKey pd1 "page_markdown" (.str "")
    | some _ => pd1
  setKey pd2 "ref_prefix" (.str relRoot)

mutual
/-- `render_site` (lines 188-250): create the output directory and walk
the JSON listing (the template and JSON directories are given, so the
top-level missing-directory early returns do not arise). -/
def render_site (templates : List (String × String)) (jes : List JEntry)
    (output_dir relRoot : String) : RenderOut × Option PyErr :=
  renderLoop templates jes output_dir relRoot ⟨[output_dir], []⟩

/-- The entry loop of `render_site` (lines 205-250): a subdirectory is
recursed into with a deepened output path and one more `../`; then — the
branches are not exclusive — any entry named `*.json` is opened as a file
(a directory so named raises `IsADirectoryError`): a missing template
file or a `KeyError` from substitution skips just that page, while any
other exception aborts the walk. -/
def renderLoop (templates : List (String × String)) :
    List JEntry → String → String → RenderOut → RenderOut × Option PyErr
  | [], _, _, acc => (acc, none)
  | e :: rest, output_dir, relRoot, acc =>
    match e with
    | .dir n sub =>
      let r := render_site templates sub (pathJoin output_dir n) (relRoot ++ "../")
      match r.2 with
      | some err => (acc.append r.1, some err)
      | none =>
        if strEndsWith n ".json" then (acc.append r.1, some (.isADirectoryError n))
        else renderLoop templates rest output_dir relRoot (acc.append r.1)
    | .file n page_data =>
      if strEndsWith n ".json" then
        match layoutTemplateName page_data with
        | .error err => (acc, some err)
        | .ok tname =>
          match lookupStr templates tname with
          | none => renderLoop templates rest output_dir relRoot acc
          | some tmpl =>
            match templateSubstitute (withDefaults page_data relRoot) tmpl with
            | .ok html =>
              renderLoop templates rest output_dir relRoot
                (acc.append ⟨[], [(pathJoin output_dir (splitextBase n ++ ".html"), html)]⟩)
            | .error (.keyError _) => renderLoop templates rest output_dir relRoot acc
            | .error err => (acc, some err)
      else renderLoop templates rest output_dir relRoot acc
end

/-! ### Helper lemmas -/

theorem lookupKey_setKey_self (m : Metadata) (k : String) (v : Value) :
    lookupKey (setKey m k v) k = some v := by
  induction m with
  | nil => simp [setKey, lookupKey]
  | cons p rest ih =>
    obtain ⟨k', v'⟩ := p
    by_cases h : k' = k <;> simp [setKey, lookupKey, h, ih]

theorem lookupKey_setKey_ne (m : Metadata) (k k' : String) (v : Value)
    (h : k' ≠ k) : lookupKey (setKey m k v) k' = lookupKey m k' := by
  have hk : ¬(k = k') := fun hk => h hk.symm
  induction m with
  | nil => simp [setKey, lookupKey, hk]
  | cons p rest ih =>
    obtain ⟨k₀, v₀⟩ := p
    by_cases h0 : k₀ = k
    · subst h0
      simp [setKey, lookupKey, hk]
    · by_cases h1 : k₀ = k' <;> simp [setKey, lookupKey, h0, h1, h, ih]

/-- Appending to the seed accumulator commutes out of the nav scan loop:
the loop only ever appends on the right. -/
theorem navLoop_shift (yp : String → Option Metadata) :
    ∀ (es : List FSEntry) (pre acc : List NavLink),
      navLoop yp es (pre ++ acc) = Except.map (pre ++ ·) (navLoop yp es acc) := by
  intro es
  induction es with
  | nil => intro pre acc; simp [navLoop, Except.map]
  | cons e rest ih =>
    intro pre acc
    match e with
    | .dir n sub =>
      by_cases h : isMdName n = true <;> simp [navLoop, FSEntry.name, h, ih, Except.map]
    | .file n content =>
      by_cases h : isMdName n = true
      · simp only [navLoop, FSEntry.name, h, if_true]
        cases lookupKey (parse_front_matter yp content).1 "title" with
        | none => simp [Except.map]
        | some t =>
          cases lookupKey (parse_front_matter yp content).1 "navmenu" with
          | none => simp [Except.map]
          | some nm =>
            by_cases hnm : pyEq nm (.bool true) = true
            · simp only [hnm, if_true]
              cases lookupKey (parse_front_matter yp content).1 "navorder" with
              | none => simp [Except.map]
              | some o =>
                simp only []
                rw [List.append_assoc]
                exact ih pre _
            · simp only [hnm, if_false]
              exact ih pre acc
      · simp [navLoop, FSEntry.name, h, ih]

/-- Elements of the seed list survive the scan loop. -/
theorem mem_navLoop_of_mem_acc (yp : String → Option Metadata)
    (es : List FSEntry) (acc r : List NavLink)
    (hr : navLoop yp es acc = .ok r) : ∀ l ∈ acc, l ∈ r := by
  have h := navLoop_shift yp es acc []
  rw [List.append_nil] at h
  rw [h] at hr
  cases htail : navLoop yp es [] with
  | error e => rw [htail] at hr; simp [Except.map] at hr
  | ok tail =>
    rw [htail] at hr
    simp only [Except.map, Except.ok.injEq] at hr
    intro l hl
    rw [← hr]
    exact List.mem_append_left _ hl

/-! ### Claim C4: front-matter fallback asymmetry -/

/-- C4: for every input text, `parse_front_matter` satisfies the fallback
asymmetry — no delimiter block yields empty metadata and the body
byte-for-byte equal to the input; a present block whose contents fail to
parse yields empty metadata and the body equal to the entire original
text, delimiters included; only a present and valid block is stripped,
returning the parsed mapping and the trimmed remaining body. -/
theorem front_matter_fallback_asymmetry (yp : String → Option Metadata) (text : String) :
    (splitFrontMatter text = none → parse_front_matter yp text = ([], text))
    ∧ (∀ fm body, splitFrontMatter text = some (fm, body) → yp fm = none →
        parse_front_matter yp text = ([], text))
    ∧ (∀ fm body m, splitFrontMatter text = some (fm, body) → yp fm = some m →
        parse_front_matter yp text = (m, String.mk (stripChars body.data))) := by
  refine ⟨?_, ?_, ?_⟩
  · intro h; simp [parse_front_matter, h]
  · intro fm body h hy; simp [parse_front_matter, h, hy]
  · intro fm body m h hy; simp [parse_front_matter, h, hy]

/-- Concrete YAML stub for the C4 witness: only the block `good` parses. -/
def ypC4 : String → Option Metadata :=
  fun s => if s = "good" then some [("title", Value.str "T")] else none

/-- Witness for C4 at three concrete documents, one per branch. -/
theorem front_matter_fallback_asymmetry_witness :
    parse_front_matter ypC4 "hello\nworld" = ([], "hello\nworld")
    ∧ parse_front_matter ypC4 "---\nbad: [\n---\nrest" = ([], "---\nbad: [\n---\nrest")
    ∧ parse_front_matter ypC4 "---\ngood\n---\n  body\n" = ([("title", Value.str "T")], "body") :=
  ⟨(front_matter_fallback_asymmetry ypC4 "hello\nworld").1 rfl,
   (front_matter_fallback_asymmetry ypC4 "---\nbad: [\n---\nrest").2.1 "bad: [" "rest" rfl rfl,
   (front_matter_fallback_asymmetry ypC4 "---\ngood\n---\n  body\n").2.2 "good" "  body\n"
     [("title", Value.str "T")] rfl rfl⟩

/-! ### Claim C2: navigation entry conditions -/

/-- C2 (counterexample): a Markdown file whose front matter has `title`
(and `navorder`) but no `navmenu` is claimed to be skipped without
faulting; the Navigation Collector in fact raises `KeyError: 'navmenu'`
(line 71 uses a bracket lookup), so the scan never returns a list. -/
theorem navmenu_missing_faults_cex :
    generate_navigation_links
        (fun s => if s = "x" then some [("title", Value.str "A"), ("navorder", Value.int 1)] else none)
        [FSEntry.file "a.md" "---\nx\n---\nbody"] []
      = .error (.keyError "navmenu")
    ∧ ∀ r, generate_navigation_links
        (fun s => if s = "x" then some [("title", Value.str "A"), ("navorder", Value.int 1)] else none)
        [FSEntry.file "a.md" "---\nx\n---\nbody"] [] ≠ .ok r :=
  ⟨rfl, fun _ h => Except.noConfusion h⟩

/-- C2 (amended): for a Markdown file at the head of the scan, `title`
and `navmenu` are read unconditionally — either missing is a hard
`KeyError` even when `navmenu` is absent or false; a file whose `navmenu`
is present but not Python-`== True` is skipped; `navorder` is read only
when `navmenu == True`, and then an entry is appended. -/
theorem nav_entry_conditions (yp : String → Option Metadata)
    (n content : String) (rest : List FSEntry) (acc : List NavLink)
    (hmd : isMdName n = true) :
    (lookupKey (parse_front_matter yp content).1 "title" = none →
      navLoop yp (.file n content :: rest) acc = .error (.keyError "title"))
    ∧ (∀ t, lookupKey (parse_front_matter yp content).1 "title" = some t →
        lookupKey (parse_front_matter yp content).1 "navmenu" = none →
        navLoop yp (.file n content :: rest) acc = .error (.keyError "navmenu"))
    ∧ (∀ t v, lookupKey (parse_front_matter yp content).1 "title" = some t →
        lookupKey (parse_front_matter yp content).1 "navmenu" = some v →
        pyEq v (.bool true) = false →
        navLoop yp (.file n content :: rest) acc = navLoop yp rest acc)
    ∧ (∀ t v, lookupKey (parse_front_matter yp content).1 "title" = some t →
        lookupKey (parse_front_matter yp content).1 "navmenu" = some v →
        pyEq v (.bool true) = true →
        lookupKey (parse_front_matter yp content).1 "navorder" = none →
        navLoop yp (.file n content :: rest) acc = .error (.keyError "navorder"))
    ∧ (∀ t v o, lookupKey (parse_front_matter yp content).1 "title" = some t →
        lookupKey (parse_front_matter yp content).1 "navmenu" = some v →
        pyEq v (.bool true) = true →
        lookupKey (parse_front_matter yp content).1 "navorder" = some o →
        navLoop yp (.file n content :: rest) acc =
          navLoop yp rest (acc ++ [⟨splitextBase n ++ ".html", t, o⟩])) := by
  refine ⟨?_, ?_, ?_, ?_, ?_⟩
  · intro h; simp [navLoop, FSEntry.name, hmd, h]
  · intro t ht h; simp [navLoop, FSEntry.name, hmd, ht, h]
  · intro t v ht hv hne; simp [navLoop, FSEntry.name, hmd, ht, hv, hne]
  · intro t v ht hv heq h; simp [navLoop, FSEntry.name, hmd, ht, hv, heq, h]
  · intro t v o ht hv heq ho; simp [navLoop, FSEntry.name, hmd, ht, hv, heq, ho]

/-- Concrete YAML stub for the C2 witness. -/
def ypC2 : String → Option Metadata :=
  fun s =>
    if s = "t0" then some []
    else if s = "t1" then some [("title", Value.str "A")]
    else if s = "t2" then some [("title", Value.str "A"), ("navmenu", Value.bool false)]
    else if s = "t3" then some [("title", Value.str "A"), ("navmenu", Value.bool true)]
    else if s = "t4" then
      some [("title", Value.str "A"), ("navmenu", Value.bool true), ("navorder", Value.int 2)]
    else none

/-- Witness for C2, one concrete file per branch of the condition. -/
theorem nav_entry_conditions_witness :
    navLoop ypC2 [.file "a.md" "---\nt0\n---\n"] [] = .error (.keyError "title")
    ∧ navLoop ypC2 [.file "a.md" "---\nt1\n---\n"] [] = .error (.keyError "navmenu")
    ∧ navLoop ypC2 [.file "a.md" "---\nt2\n---\n"] [] = navLoop ypC2 [] []
    ∧ navLoop ypC2 [.file "a.md" "---\nt3\n---\n"] [] = .error (.keyError "navorder")
    ∧ navLoop ypC2 [.file "a.md" "---\nt4\n---\n"] [] =
        navLoop ypC2 [] [⟨"a.html", Value.str "A", Value.int 2⟩] :=
  ⟨(nav_entry_conditions ypC2 "a.md" "---\nt0\n---\n" [] [] rfl).1 rfl,
   (nav_entry_conditions ypC2 "a.md" "---\nt1\n---\n" [] [] rfl).2.1 _ rfl rfl,
   (nav_entry_conditions ypC2 "a.md" "---\nt2\n---\n" [] [] rfl).2.2.1 _ _ rfl rfl rfl,
   (nav_entry_conditions ypC2 "a.md" "---\nt3\n---\n" [] [] rfl).2.2.2.1 _ _ rfl rfl rfl rfl,
   (nav_entry_conditions ypC2 "a.md" "---\nt4\n---\n" [] [] rfl).2.2.2.2 _ _ _ rfl rfl rfl rfl⟩

/-! ### Claim C3: the `layout` default -/

/-- The navigation-HTML loop cannot fail once the page has a `title`. -/
theorem navHtmlLoop_ok (pd : Metadata) (rp : String) (t : Value)
    (hl : lookupKey pd "title" = some t) :
    ∀ (nav : List NavLink) (acc : String), ∃ s, navHtmlLoop pd rp nav acc = .ok s := by
  intro nav
  induction nav with
  | nil => intro acc; exact ⟨acc, rfl⟩
  | cons l rest ih => intro acc; simp only [navHtmlLoop, hl]; exact ih _

/-- A single-Markdown-file directory whose page has `title`, a non-true
`navmenu` and no `layout` key: the generator stops with
`KeyError: 'layout'` and writes nothing. -/
theorem genData_single_missing_layout (yp : String → Option Metadata)
    (md : String → String) (n c jd : String) (nav : List NavLink) (rp : String)
    (t v : Value) (hmd : isMdName n = true)
    (ht : lookupKey (parse_front_matter yp c).1 "title" = some t)
    (hv : lookupKey (parse_front_matter yp c).1 "navmenu" = some v)
    (hne : pyEq v (.bool true) = false)
    (hl : lookupKey (parse_front_matter yp c).1 "layout" = none) :
    generate_data yp md [.file n c] jd nav rp =
      (⟨[jd], []⟩, List.insertionSort navRel nav, some (.keyError "layout")) := by
  have hnav : generate_navigation_links yp [.file n c] nav =
      .ok (List.insertionSort navRel nav) := by
    simp [generate_navigation_links, navLoop, FSEntry.name, hmd, ht, hv, hne]
  have htitle : lookupKey (setKey (parse_front_matter yp c).1 "page_markdown"
      (.str (md (parse_front_matter yp c).2))) "title" = some t := by
    rw [lookupKey_setKey_ne _ _ _ _ (by decide)]; exact ht
  obtain ⟨s, hs⟩ := navHtmlLoop_ok _ rp t htitle (List.insertionSort navRel nav) ""
  have hproc : processPage yp md [.file n c] jd (List.insertionSort navRel nav) rp n c =
      .error (.keyError "layout") := by
    simp only [processPage, hs]
    rw [lookupKey_setKey_ne _ _ _ _ (by decide),
        lookupKey_setKey_ne _ _ _ _ (by decide), hl]
  simp [generate_data, hnav, genLoop, FSEntry.name, hmd, hproc]

/-- C3 (counterexample): a page whose front matter has no `layout` key —
here `{title: A, navmenu: false}` — is claimed to be written as JSON
without error; `generate_data` instead stops with `KeyError: 'layout'`
(line 178 is a bracket lookup) and writes no page document. -/
theorem layout_missing_generator_faults_cex :
    generate_data
        (fun s => if s = "x" then some [("title", Value.str "A"), ("navmenu", Value.bool false)] else none)
        (fun s => s) [FSEntry.file "a.md" "---\nx\n---\nbody"] "j" [] "./"
      = (⟨["j"], []⟩, [], some (.keyError "layout"))
    ∧ (generate_data
        (fun s => if s = "x" then some [("title", Value.str "A"), ("navmenu", Value.bool false)] else none)
        (fun s => s) [FSEntry.file "a.md" "---\nx\n---\nbody"] "j" [] "./").2.2 ≠ none := by
  have h := genData_single_missing_layout
    (fun s => if s = "x" then some [("title", Value.str "A"), ("navmenu", Value.bool false)] else none)
    (fun s => s) "a.md" "---\nx\n---\nbody" "j" [] "./"
    (Value.str "A") (Value.bool false) rfl rfl rfl rfl rfl
  exact ⟨h, fun hn => by rw [h] at hn; exact Option.noConfusion hn⟩

/-- C3 (amended): the Data Generator requires `layout` — on a page whose
front matter omits it the generation step stops with `KeyError: 'layout'`
and writes no page document; only the Site Renderer defaults the layout,
selecting the template file `page.html` for a JSON document without a
`layout` field and rendering the page with it. -/
theorem layout_generator_requires_renderer_defaults :
    (∀ (yp : String → Option Metadata) (md : String → String)
        (n c jd : String) (nav : List NavLink) (rp : String) (t v : Value),
      isMdName n = true →
      lookupKey (parse_front_matter yp c).1 "title" = some t →
      lookupKey (parse_front_matter yp c).1 "navmenu" = some v →
      pyEq v (.bool true) = false →
      lookupKey (parse_front_matter yp c).1 "layout" = none →
      generate_data yp md [.file n c] jd nav rp =
        (⟨[jd], []⟩, List.insertionSort navRel nav, some (.keyError "layout")))
    ∧ (∀ (pd : Metadata) (n od rp : String) (tmpls : List (String × String)),
      lookupKey pd "layout" = none →
      strEndsWith n ".json" = true →
      lookupStr tmpls "page.html" = some "$ref_prefix" →
      render_site tmpls [JEntry.file n pd] od rp =
        (⟨[od], [(pathJoin od (splitextBase n ++ ".html"), rp)]⟩, none)) := by
  constructor
  · intro yp md n c jd nav rp t v hmd ht hv hne hl
    exact genData_single_missing_layout yp md n c jd nav rp t v hmd ht hv hne hl
  · intro pd n od rp tmpls hl hjson htm
    have hlt : layoutTemplateName pd = .ok ("page" ++ ".html") := by
      simp [layoutTemplateName, hl]
    have hsub : templateSubstitute (withDefaults pd rp) "$ref_prefix" = .ok rp := by
      have hrp : lookupKey (withDefaults pd rp) "ref_prefix" = some (.str rp) :=
        lookupKey_setKey_self _ _ _
      simp [templateSubstitute, scanTemplate, dollarMode, identMode, isIdStart, isIdChar,
        Char.isAlpha, Char.isLower, Char.isUpper, Char.isDigit, hrp, pyStr]
    have : ("page" ++ ".html" : String) = "page.html" := rfl
    simp [render_site, renderLoop, JEntry.name, hjson, hlt, this, htm, hsub, RenderOut.append]

/-- Concrete YAML stub for the C3 witness. -/
def ypC3 : String → Option Metadata :=
  fun s => if s = "x" then some [("title", Value.str "A"), ("navmenu", Value.bool false)] else none

/-- Witness for C3: the generator faults on a concrete layout-less page;
the renderer renders one with `page.html`. -/
theorem layout_generator_requires_renderer_defaults_witness :
    generate_data ypC3 (fun s => s) [.file "a.md" "---\nx\n---\nbody"] "j" [] "./"
      = (⟨["j"], []⟩, [], some (.keyError "layout"))
    ∧ render_site [("page.html", "$ref_prefix")]
        [JEntry.file "p.json" [("title", Value.str "A")]] "o" "./"
      = (⟨["o"], [("o/p.html", "./")]⟩, none) :=
  ⟨layout_generator_requires_renderer_defaults.1 ypC3 (fun s => s) "a.md" "---\nx\n---\nbody"
      "j" [] "./" (Value.str "A") (Value.bool false) rfl rfl rfl rfl rfl,
   layout_generator_requires_renderer_defaults.2 [("title", Value.str "A")] "p.json" "o" "./"
      [("page.html", "$ref_prefix")] rfl rfl rfl⟩

/-! ### Claim C9: missing containers directory -/

/-- One generator-loop step for a containers page whose `containerspath`
does not resolve to a directory: the page document is still written, with
`containers_markdown` bound to JSON null, and the loop continues with the
remaining entries. -/
theorem genLoop_containers_missing (yp : String → Option Metadata)
    (md : String → String) (full rest : List FSEntry) (jd : String)
    (nav : List NavLink) (rp : String) (acc : GenOut) (n c cps : String)
    (t lv : Value) (hmd : isMdName n = true)
    (ht : lookupKey (parse_front_matter yp c).1 "title" = some t)
    (hl : lookupKey (parse_front_matter yp c).1 "layout" = some lv)
    (hcont : pyEq lv (.str "containers") = true)
    (hcp : lookupKey (parse_front_matter yp c).1 "containerspath" = some (.str cps))
    (hmiss : resolvePath full cps = none) :
    ∃ pd, genLoop yp md full (.file n c :: rest) jd nav rp acc =
        genLoop yp md full rest jd nav rp
          (acc.append ⟨[], [(pathJoin jd (splitextBase n ++ ".json"), pd)]⟩)
      ∧ lookupKey pd "containers_markdown" = some Value.null := by
  have htitle : lookupKey (setKey (parse_front_matter yp c).1 "page_markdown"
      (.str (md (parse_front_matter yp c).2))) "title" = some t := by
    rw [lookupKey_setKey_ne _ _ _ _ (by decide)]; exact ht
  obtain ⟨s, hs⟩ := navHtmlLoop_ok _ rp t htitle nav ""
  refine ⟨setKey (setKey (setKey (parse_front_matter yp c).1 "page_markdown"
      (.str (md (parse_front_matter yp c).2))) "navigation_links" (.str s))
      "containers_markdown" Value.null, ?_, ?_⟩
  · have hproc : processPage yp md full jd nav rp n c =
        .ok (pathJoin jd (splitextBase n ++ ".json"),
          setKey (setKey (setKey (parse_front_matter yp c).1 "page_markdown"
            (.str (md (parse_front_matter yp c).2))) "navigation_links" (.str s))
            "containers_markdown" Value.null) := by
      simp only [processPage, hs]
      rw [lookupKey_setKey_ne _ _ _ _ (by decide),
          lookupKey_setKey_ne _ _ _ _ (by decide), hl]
      simp only [hcont, if_true]
      rw [lookupKey_setKey_ne _ _ _ _ (by decide),
          lookupKey_setKey_ne _ _ _ _ (by decide), hcp]
      simp [hmiss, generate_containers_markdown]
    simp [genLoop, FSEntry.name, hmd, hproc]
  · exact lookupKey_setKey_self _ _ _

/-- C9: the Containers Assembler run against a non-existent directory
produces no markup (Python `None`); the Data Generator tolerates this,
still writing the page's JSON document with the `containers_markdown`
field holding the null value, and goes on generating the remaining
pages. -/
theorem missing_containers_dir_null_tolerated :
    (∀ yp : String → Option Metadata, generate_containers_markdown yp none = .ok none)
    ∧ (∀ (yp : String → Option Metadata) (md : String → String)
        (full rest : List FSEntry) (jd : String) (nav : List NavLink)
        (rp : String) (acc : GenOut) (n c cps : String) (t lv : Value),
      isMdName n = true →
      lookupKey (parse_front_matter yp c).1 "title" = some t →
      lookupKey (parse_front_matter yp c).1 "layout" = some lv →
      pyEq lv (.str "containers") = true →
      lookupKey (parse_front_matter yp c).1 "containerspath" = some (.str cps) →
      resolvePath full cps = none →
      ∃ pd, genLoop yp md full (.file n c :: rest) jd nav rp acc =
          genLoop yp md full rest jd nav rp
            (acc.append ⟨[], [(pathJoin jd (splitextBase n ++ ".json"), pd)]⟩)
        ∧ lookupKey pd "containers_markdown" = some Value.null) :=
  ⟨fun _ => rfl,
   fun yp md full rest jd nav rp acc n c cps t lv hmd ht hl hcont hcp hmiss =>
     genLoop_containers_missing yp md full rest jd nav rp acc n c cps t lv
       hmd ht hl hcont hcp hmiss⟩

/-- Concrete YAML stub for the C9 witness. -/
def ypC9 : String → Option Metadata :=
  fun s =>
    if s = "x" then
      some [("title", Value.str "A"), ("navmenu", Value.bool false),
            ("layout", Value.str "containers"), ("containerspath", Value.str "cdir")]
    else none

/-- Witness for C9 on a concrete containers page whose `containerspath`
names a directory absent from the listing. -/
theorem missing_containers_dir_null_tolerated_witness :
    generate_containers_markdown ypC9 none = .ok none
    ∧ ∃ pd, genLoop ypC9 (fun s => s) [.file "p.md" "---\nx\n---\nbody"]
          [.file "p.md" "---\nx\n---\nbody"] "j" [] "./" ⟨["j"], []⟩ =
        genLoop ypC9 (fun s => s) [.file "p.md" "---\nx\n---\nbody"] [] "j" [] "./"
          (GenOut.append ⟨["j"], []⟩ ⟨[], [(pathJoin "j" (splitextBase "p.md" ++ ".json"), pd)]⟩)
      ∧ lookupKey pd "containers_markdown" = some Value.null :=
  ⟨missing_containers_dir_null_tolerated.1 ypC9,
   missing_containers_dir_null_tolerated.2 ypC9 (fun s => s)
     [.file "p.md" "---\nx\n---\nbody"] [] "j" [] "./" ⟨["j"], []⟩
     "p.md" "---\nx\n---\nbody" "cdir" (Value.str "A") (Value.str "containers")
     rfl rfl rfl rfl rfl rfl⟩

/-! ### Claim C10: directory entries named like files -/

/-- A directory named like Markdown at the head of the listing: the
generator's navigation scan (which runs before the entry loop) opens it
and raises `IsADirectoryError` — before any recursion, so no child output
is written. -/
theorem genData_dir_md_head (yp : String → Option Metadata) (md : String → String)
    (n : String) (sub rest : List FSEntry) (jd : String) (nav : List NavLink)
    (rp : String) (hmd : isMdName n = true) :
    generate_data yp md (.dir n sub :: rest) jd nav rp =
      (⟨[jd], []⟩, nav, some (.isADirectoryError n)) := by
  have hnav : generate_navigation_links yp (.dir n sub :: rest) nav =
      .error (.isADirectoryError n) := by
    simp [generate_navigation_links, navLoop, FSEntry.name, hmd]
  simp [generate_data, hnav]

/-- A directory named `*.json` at the head of the renderer's listing: the
renderer first recurses into it (its output is kept) and then fails
opening it as a file. -/
theorem render_dir_json_head (templates : List (String × String)) (n : String)
    (sub rest : List JEntry) (od rp : String)
    (hjson : strEndsWith n ".json" = true)
    (hchild : (render_site templates sub (pathJoin od n) (rp ++ "../")).2 = none) :
    render_site templates (.dir n sub :: rest) od rp =
      (RenderOut.append ⟨[od], []⟩
        (render_site templates sub (pathJoin od n) (rp ++ "../")).1,
       some (.isADirectoryError n)) := by
  rw [render_site]
  rw [renderLoop]
  simp [JEntry.name, hjson, hchild]

/-- C10 (counterexample): for the Data Generator, a subdirectory named
`a.md` is claimed to be first recursed into and only then opened; in fact
the walk dies in the navigation scan before the entry loop ever runs, so
the child directory `j/a.md` is never created and the child page inside
is never written — the failure precedes the recursion instead of
following it. -/
theorem generator_md_dir_no_recursion_cex :
    generate_data (fun _ => (none : Option Metadata)) (fun s => s)
        [.dir "a.md" [.file "b.md" "body"]] "j" [] "./"
      = (⟨["j"], []⟩, [], some (.isADirectoryError "a.md"))
    ∧ "j/a.md" ∉ (generate_data (fun _ => (none : Option Metadata)) (fun s => s)
        [.dir "a.md" [.file "b.md" "body"]] "j" [] "./").1.dirs := by
  have h := genData_dir_md_head (fun _ => (none : Option Metadata)) (fun s => s)
    "a.md" [.file "b.md" "body"] [] "j" [] "./" rfl
  refine ⟨h, ?_⟩
  rw [h]
  simp

/-- C10 (amended): the subdirectory and file branches are indeed not
mutually exclusive and such an entry makes the walk fail with
`IsADirectoryError`; but only the Site Renderer first recurses into the
directory and then fails opening it (keeping the recursion's output),
while the Data Generator fails already in the navigation-collection pass
over the listing, before the subdirectory branch runs, so nothing of the
subtree is generated. -/
theorem md_dir_entry_fails_walk :
    (∀ (yp : String → Option Metadata) (md : String → String) (n : String)
        (sub rest : List FSEntry) (jd : String) (nav : List NavLink) (rp : String),
      isMdName n = true →
      generate_data yp md (.dir n sub :: rest) jd nav rp =
        (⟨[jd], []⟩, nav, some (.isADirectoryError n)))
    ∧ (∀ (templates : List (String × String)) (n : String)
        (sub rest : List JEntry) (od rp : String),
      strEndsWith n ".json" = true →
      (render_site templates sub (pathJoin od n) (rp ++ "../")).2 = none →
      render_site templates (.dir n sub :: rest) od rp =
        (RenderOut.append ⟨[od], []⟩
          (render_site templates sub (pathJoin od n) (rp ++ "../")).1,
         some (.isADirectoryError n))) :=
  ⟨fun yp md n sub rest jd nav rp hmd => genData_dir_md_head yp md n sub rest jd nav rp hmd,
   fun templates n sub rest od rp hjson hchild =>
     render_dir_json_head templates n sub rest od rp hjson hchild⟩

/-- Witness for C10: a Markdown-named directory kills the generator's
walk with no child output; a JSON-named directory kills the renderer's
walk after its recursion created the child output directory. -/
theorem md_dir_entry_fails_walk_witness :
    generate_data (fun _ => (none : Option Metadata)) (fun s => s)
        [.dir "x.md" []] "j" [] "./"
      = (⟨["j"], []⟩, [], some (.isADirectoryError "x.md"))
    ∧ render_site [] [.dir "x.json" []] "o" "./"
      = (RenderOut.append ⟨["o"], []⟩ (render_site [] [] (pathJoin "o" "x.json") ("./" ++ "../")).1,
         some (.isADirectoryError "x.json")) :=
  ⟨md_dir_entry_fails_walk.1 (fun _ => (none : Option Metadata)) (fun s => s)
      "x.md" [] [] "j" [] "./" rfl,
   md_dir_entry_fails_walk.2 [] "x.json" [] [] "o" "./" rfl
     (by rw [render_site]; rw [renderLoop])⟩

/-! ### Claim C1: navigation is not directory-scoped -/

/-- Concrete YAML stub for the C1 counterexample: two pages `A` and `B`. -/
def ypC1 : String → Option Metadata :=
  fun s =>
    if s = "A" then some [("title", Value.str "A"), ("navmenu", Value.bool true),
                          ("navorder", Value.int 1), ("layout", Value.str "page")]
    else if s = "B" then some [("title", Value.str "B"), ("navmenu", Value.bool true),
                               ("navorder", Value.int 2), ("layout", Value.str "page")]
    else none

/-- Source tree for the C1 counterexample: page `a.md` at the top level
and page `b.md` inside the subdirectory `sub`. -/
def esC1 : List FSEntry :=
  [.file "a.md" "---\nA\n---\nbodyA", .dir "sub" [.file "b.md" "---\nB\n---\nbodyB"]]

/-- C1 (counterexample): navigation is claimed to be directory-scoped —
the entries used for pages in a directory coming exclusively from that
directory's own direct-child Markdown files.  Running the generator on
`esC1`, the subdirectory page `b.md` gets a navigation list that still
contains the parent directory's entry `a.html`: the caller's list is
appended to, not discarded, so the generated `navigation_links` differs
from the directory-scoped one the claim predicts. -/
theorem nav_not_directory_scoped_cex :
    ((generate_data ypC1 (fun s => s) esC1 "j" [] "./").1.files.lookup
        "j/sub/b.json").bind (fun pd => lookupKey pd "navigation_links")
      = some (.str ("\n\t\t\t\t\t\t<li><a href=\"./../a.html\">A</a></li>" ++
          "\n\t\t\t\t\t\t<li><a href=\"./../b.html\" class=\"active\">B</a></li>"))
    ∧ ("\n\t\t\t\t\t\t<li><a href=\"./../a.html\">A</a></li>" ++
          "\n\t\t\t\t\t\t<li><a href=\"./../b.html\" class=\"active\">B</a></li>" : String)
        ≠ "\n\t\t\t\t\t\t<li><a href=\"./../b.html\" class=\"active\">B</a></li>" := by
  constructor
  · have e1 : generate_navigation_links ypC1 esC1 [] =
        .ok [⟨"a.html", Value.str "A", Value.int 1⟩] := rfl
    have e2 : processPage ypC1 (fun s => s)
        [.file "a.md" "---\nA\n---\nbodyA", .dir "sub" [.file "b.md" "---\nB\n---\nbodyB"]] "j"
        [⟨"a.html", Value.str "A", Value.int 1⟩] "./" "a.md" "---\nA\n---\nbodyA" =
        .ok ("j/a.json",
          [("title", Value.str "A"), ("navmenu", Value.bool true),
           ("navorder", Value.int 1), ("layout", Value.str "page"),
           ("page_markdown", Value.str "bodyA"),
           ("navigation_links", Value.str "\n\t\t\t\t\t\t<li><a href=\"./a.html\" class=\"active\">A</a></li>")]) := rfl
    have e3 : generate_navigation_links ypC1 [.file "b.md" "---\nB\n---\nbodyB"]
        [⟨"a.html", Value.str "A", Value.int 1⟩] =
        .ok [⟨"a.html", Value.str "A", Value.int 1⟩, ⟨"b.html", Value.str "B", Value.int 2⟩] := rfl
    have e4 : processPage ypC1 (fun s => s) [.file "b.md" "---\nB\n---\nbodyB"] "j/sub"
        [⟨"a.html", Value.str "A", Value.int 1⟩, ⟨"b.html", Value.str "B", Value.int 2⟩] "./../"
        "b.md" "---\nB\n---\nbodyB" =
        .ok ("j/sub/b.json",
          [("title", Value.str "B"), ("navmenu", Value.bool true),
           ("navorder", Value.int 2), ("layout", Value.str "page"),
           ("page_markdown", Value.str "bodyB"),
           ("navigation_links", Value.str ("\n\t\t\t\t\t\t<li><a href=\"./../a.html\">A</a></li>" ++
             "\n\t\t\t\t\t\t<li><a href=\"./../b.html\" class=\"active\">B</a></li>"))]) := rfl
    rw [generate_data, e1]
    simp only [esC1] at *
    simp +decide [genLoop.eq_def, e2, e3, e4, FSEntry.name, GenOut.append, generate_data, e1,
      lookupKey, List.lookup]
    rfl
  · decide

/-- C1 (amended): the navigation list passed in from the caller is never
discarded — `generate_navigation_links` appends this level's entries to
it and re-sorts the shared list, so every entry of the caller's list
survives into the navigation used for the current directory's pages (and,
through the recursion, ancestors' entries accumulate into subdirectory
pages' navigation: navigation is cumulative, not directory-scoped). -/
theorem nav_list_merged_not_discarded (yp : String → Option Metadata)
    (es : List FSEntry) (nav r : List NavLink)
    (h : generate_navigation_links yp es nav = .ok r) : ∀ l ∈ nav, l ∈ r := by
  unfold generate_navigation_links at h
  cases hnl : navLoop yp es nav with
  | error e => rw [hnl] at h; exact absurd h (by simp)
  | ok scanned =>
    rw [hnl] at h
    simp only [Except.ok.injEq] at h
    intro l hl
    rw [← h]
    rw [List.mem_insertionSort]
    exact mem_navLoop_of_mem_acc yp es nav scanned hnl l hl

/-- Witness for C1: the caller's entry `z.html` survives (re-sorted) into
the navigation list built for a directory containing one page of its
own. -/
theorem nav_list_merged_not_discarded_witness :
    (⟨"z.html", Value.str "Z", Value.int 9⟩ : NavLink) ∈
      [(⟨"a.html", Value.str "A", Value.int 2⟩ : NavLink),
       ⟨"z.html", Value.str "Z", Value.int 9⟩] :=
  nav_list_merged_not_discarded ypC2 [.file "a.md" "---\nt4\n---\n"]
    [⟨"z.html", Value.str "Z", Value.int 9⟩]
    [⟨"a.html", Value.str "A", Value.int 2⟩, ⟨"z.html", Value.str "Z", Value.int 9⟩]
    rfl _ (List.mem_singleton.mpr rfl)

/-! ### Claim C5: per-page rendering faults -/

/-- The two per-page rendering faults the renderer catches for a page
document: its template file is missing from the template directory, or
substituting the template raises `KeyError` for an unresolved
placeholder. -/
def pageSkips (templates : List (String × String)) (rp : String) (pd : Metadata) : Prop :=
  ∃ tn, layoutTemplateName pd = .ok tn ∧
    (lookupStr templates tn = none ∨
     ∃ tmpl k, lookupStr templates tn = some tmpl ∧
       templateSubstitute (withDefaults pd rp) tmpl = .error (.keyError k))

/-- Dropping a skipped page from the listing leaves the renderer's loop
result unchanged, wherever the page sits in the listing. -/
theorem renderLoop_skip (templates : List (String × String)) (rp n : String)
    (pd : Metadata) (hjson : strEndsWith n ".json" = true)
    (hbad : pageSkips templates rp pd) :
    ∀ (pre post : List JEntry) (od : String) (acc : RenderOut),
      renderLoop templates (pre ++ .file n pd :: post) od rp acc =
        renderLoop templates (pre ++ post) od rp acc := by
  intro pre
  induction pre with
  | nil =>
    intro post od acc
    obtain ⟨tn, htn, hcase⟩ := hbad
    simp only [List.nil_append]
    rw [renderLoop.eq_def]
    cases hcase with
    | inl hmiss => simp [JEntry.name, hjson, htn, hmiss]
    | inr h =>
      obtain ⟨tmpl, k, hsome, herr⟩ := h
      simp [JEntry.name, hjson, htn, hsome, herr]
  | cons e pre' ih =>
    intro post od acc
    simp only [List.cons_append]
    cases e with
    | dir n0 sub =>
      rw [renderLoop.eq_def]
      conv_rhs => rw [renderLoop.eq_def]
      cases hr : (render_site templates sub (pathJoin od n0) (rp ++ "../")).2 with
      | some err => simp [hr]
      | none =>
        by_cases hj : strEndsWith n0 ".json" = true
        · simp [hr, hj]
        · simp [hr, hj, ih]
    | file n0 pd0 =>
      rw [renderLoop.eq_def]
      conv_rhs => rw [renderLoop.eq_def]
      by_cases hj : strEndsWith n0 ".json" = true
      · cases hlt : layoutTemplateName pd0 with
        | error err => simp [hj, hlt]
        | ok tn0 =>
          cases htm : lookupStr templates tn0 with
          | none => simp [hj, hlt, htm, ih]
          | some tmpl0 =>
            cases hsub : templateSubstitute (withDefaults pd0 rp) tmpl0 with
            | ok html => simp [hj, hlt, htm, hsub, ih]
            | error err =>
              cases err with
              | keyError k0 => simp [hj, hlt, htm, hsub, ih]
              | isADirectoryError m => simp [hj, hlt, htm, hsub]
              | typeError m => simp [hj, hlt, htm, hsub]
              | valueError m => simp [hj, hlt, htm, hsub]
      · simp [hj, ih]

/-- C5: a page document whose template file is missing or whose template
has a placeholder with no corresponding field is skipped alone — the
render of the whole listing equals the render with that page removed, so
all pages before it are written identically and all pages after it still
render. -/
theorem render_bad_page_skipped (templates : List (String × String))
    (n : String) (pd : Metadata) (pre post : List JEntry) (od rp : String)
    (hjson : strEndsWith n ".json" = true)
    (hbad : pageSkips templates rp pd) :
    render_site templates (pre ++ .file n pd :: post) od rp =
      render_site templates (pre ++ post) od rp := by
  rw [render_site, render_site]
  exact renderLoop_skip templates rp n pd hjson hbad pre post od _

/-- Witness for C5: a missing template (`nosuch.html`) and a missing
placeholder (`$foo`) each skip exactly that page between two rendered
neighbours. -/
theorem render_bad_page_skipped_witness :
    render_site [("page.html", "$title"), ("extra.html", "$foo")]
        ([.file "x.json" [("title", Value.str "X")]] ++
          .file "bad.json" [("layout", Value.str "nosuch")] ::
          [.file "y.json" [("title", Value.str "Y")]]) "o" "./"
      = render_site [("page.html", "$title"), ("extra.html", "$foo")]
          ([.file "x.json" [("title", Value.str "X")]] ++
            [.file "y.json" [("title", Value.str "Y")]]) "o" "./"
    ∧ render_site [("page.html", "$title"), ("extra.html", "$foo")]
        ([.file "x.json" [("title", Value.str "X")]] ++
          .file "bad2.json" [("layout", Value.str "extra")] ::
          [.file "y.json" [("title", Value.str "Y")]]) "o" "./"
      = render_site [("page.html", "$title"), ("extra.html", "$foo")]
          ([.file "x.json" [("title", Value.str "X")]] ++
            [.file "y.json" [("title", Value.str "Y")]]) "o" "./" := by
  constructor
  · exact render_bad_page_skipped _ "bad.json" [("layout", Value.str "nosuch")]
      _ _ "o" "./" rfl ⟨"nosuch.html", rfl, Or.inl rfl⟩
  · refine render_bad_page_skipped _ "bad2.json" [("layout", Value.str "extra")]
      _ _ "o" "./" rfl ⟨"extra.html", rfl, Or.inr ⟨"$foo", "foo", rfl, ?_⟩⟩
    have hd : ("$foo" : String).data = ['$', 'f', 'o', 'o'] := rfl
    simp [templateSubstitute, hd, scanTemplate, dollarMode, identMode,
      isIdStart, isIdChar, lookupKey, withDefaults, setKey]

/-! ### Claim C6: the navigation ordering invariant -/

theorem charListLe_trans : ∀ {a b c : List Char},
    charListLe a b = true → charListLe b c = true → charListLe a c = true := by
  intro a
  induction a with
  | nil => intro b c _ _; simp [charListLe]
  | cons x xs ih =>
    intro b c hab hbc
    cases b with
    | nil => simp [charListLe] at hab
    | cons y ys =>
      cases c with
      | nil => simp [charListLe] at hbc
      | cons z zs =>
        simp only [charListLe] at hab hbc ⊢
        split_ifs at hab hbc ⊢ <;> try omega
        all_goals try simp_all
        all_goals exact ih hab hbc

theorem charListLe_total : ∀ (a b : List Char),
    charListLe a b = true ∨ charListLe b a = true := by
  intro a
  induction a with
  | nil => intro b; left; simp [charListLe]
  | cons x xs ih =>
    intro b
    cases b with
    | nil => right; simp [charListLe]
    | cons y ys =>
      simp only [charListLe]
      split_ifs <;> try simp_all
      all_goals try omega
      all_goals exact ih ys

theorem Value.le_trans : ∀ (a b c : Value),
    Value.le a b = true → Value.le b c = true → Value.le a c = true := by
  intro a b c hab hbc
  cases a <;> cases b <;> cases c <;>
    simp only [Value.le, numVal, Value.rank, strLe] at hab hbc ⊢
  all_goals try rfl
  all_goals try omega
  all_goals try (exact charListLe_trans hab hbc)
  all_goals try (split_ifs at * <;> omega)
  all_goals try simp_all
  all_goals try omega

theorem Value.le_total : ∀ (a b : Value), Value.le a b = true ∨ Value.le b a = true := by
  intro a b
  cases a <;> cases b <;>
    simp only [Value.le, numVal, Value.rank, strLe]
  all_goals try (left; rfl)
  all_goals try (right; rfl)
  all_goals try omega
  all_goals try (exact charListLe_total _ _)
  all_goals try simp_all
  all_goals try omega

instance : IsTrans NavLink navRel :=
  ⟨fun a b c hab hbc => Value.le_trans a.page_order b.page_order c.page_order hab hbc⟩

instance : IsTotal NavLink navRel :=
  ⟨fun a b => Value.le_total a.page_order b.page_order⟩

/-- Every entry the scan loop returns is either a seed entry or stems
from a Markdown file of the listing whose `navmenu` is Python-`== True`,
carrying that file's `title` and `navorder`. -/
theorem navLoop_provenance (yp : String → Option Metadata) :
    ∀ (es : List FSEntry) (acc r : List NavLink),
      navLoop yp es acc = .ok r → ∀ l ∈ r, l ∈ acc ∨ ∃ n c t nm o,
        FSEntry.file n c ∈ es ∧ isMdName n = true ∧
        lookupKey (parse_front_matter yp c).1 "title" = some t ∧
        lookupKey (parse_front_matter yp c).1 "navmenu" = some nm ∧
        pyEq nm (.bool true) = true ∧
        lookupKey (parse_front_matter yp c).1 "navorder" = some o ∧
        l = ⟨splitextBase n ++ ".html", t, o⟩ := by
  intro es
  induction es with
  | nil =>
    intro acc r h l hl
    simp only [navLoop, Except.ok.injEq] at h
    subst h
    exact Or.inl hl
  | cons e rest ih =>
    intro acc r h l hl
    by_cases hmd : isMdName e.name = true
    · cases e with
      | dir n sub =>
        simp only [FSEntry.name] at hmd
        simp [navLoop, FSEntry.name, hmd] at h
      | file n c =>
        simp only [FSEntry.name] at hmd
        simp only [navLoop, FSEntry.name, hmd, if_true] at h
        cases ht : lookupKey (parse_front_matter yp c).1 "title" with
        | none => rw [ht] at h; exact absurd h (by simp)
        | some t =>
          rw [ht] at h
          cases hnm : lookupKey (parse_front_matter yp c).1 "navmenu" with
          | none => rw [hnm] at h; exact absurd h (by simp)
          | some nm =>
            rw [hnm] at h
            by_cases htrue : pyEq nm (.bool true) = true
            · simp only [htrue, if_true] at h
              cases ho : lookupKey (parse_front_matter yp c).1 "navorder" with
              | none => rw [ho] at h; exact absurd h (by simp)
              | some o =>
                rw [ho] at h
                rcases ih _ _ h l hl with hacc | ⟨n', c', t', nm', o', hmem, rest'⟩
                · rcases List.mem_append.mp hacc with hl2 | hl2
                  · exact Or.inl hl2
                  · refine Or.inr ⟨n, c, t, nm, o, List.mem_cons_self _ _, hmd, ht, hnm,
                      htrue, ho, ?_⟩
                    simpa using hl2
                · exact Or.inr ⟨n', c', t', nm', o', List.mem_cons_of_mem _ hmem, rest'⟩
            · simp only [htrue, if_false] at h
              rcases ih _ _ h l hl with hacc | ⟨n', c', t', nm', o', hmem, rest'⟩
              · exact Or.inl hacc
              · exact Or.inr ⟨n', c', t', nm', o', List.mem_cons_of_mem _ hmem, rest'⟩
    · cases e with
      | dir n sub =>
        simp only [navLoop, FSEntry.name] at h hmd
        simp only [hmd, if_false] at h
        rcases ih _ _ h l hl with hacc | ⟨n', c', t', nm', o', hmem, rest'⟩
        · exact Or.inl hacc
        · exact Or.inr ⟨n', c', t', nm', o', List.mem_cons_of_mem _ hmem, rest'⟩
      | file n c =>
        simp only [navLoop, FSEntry.name] at h hmd
        simp only [hmd, if_false] at h
        rcases ih _ _ h l hl with hacc | ⟨n', c', t', nm', o', hmem, rest'⟩
        · exact Or.inl hacc
        · exact Or.inr ⟨n', c', t', nm', o', List.mem_cons_of_mem _ hmem, rest'⟩

/-- C6: the Navigation Collector's result is sorted ascending by
`page_order`; ties retain discovery order (a stable sort: every
le-related pair of the pre-sort scan list survives as a sublist); and
every entry is either inherited from the caller's list or stems from a
file whose `navmenu` is true — a page with `navmenu` false never
contributes, regardless of its `navorder`. -/
theorem nav_sorted_stable_filtered (yp : String → Option Metadata)
    (es : List FSEntry) (nav r : List NavLink)
    (h : generate_navigation_links yp es nav = .ok r) :
    ∃ scanned, navLoop yp es nav = .ok scanned
      ∧ r = List.insertionSort navRel scanned
      ∧ List.Sorted navRel r
      ∧ (∀ a b : NavLink, navLE a b = true →
          List.Sublist [a, b] scanned → List.Sublist [a, b] r)
      ∧ (∀ l ∈ r, l ∈ nav ∨ ∃ n c t nm o,
          FSEntry.file n c ∈ es ∧ isMdName n = true ∧
          lookupKey (parse_front_matter yp c).1 "title" = some t ∧
          lookupKey (parse_front_matter yp c).1 "navmenu" = some nm ∧
          pyEq nm (.bool true) = true ∧
          lookupKey (parse_front_matter yp c).1 "navorder" = some o ∧
          l = ⟨splitextBase n ++ ".html", t, o⟩) := by
  unfold generate_navigation_links at h
  cases hnl : navLoop yp es nav with
  | error e => rw [hnl] at h; exact absurd h (by simp)
  | ok scanned =>
    rw [hnl] at h
    simp only [Except.ok.injEq] at h
    subst h
    refine ⟨scanned, rfl, rfl, List.sorted_insertionSort navRel scanned, ?_, ?_⟩
    · intro a b hab hsub
      exact List.pair_sublist_insertionSort hab hsub
    · intro l hl
      rw [List.mem_insertionSort] at hl
      exact navLoop_provenance yp es nav scanned hnl l hl

/-- Concrete YAML stub for the C6 witness: sibling pages with `navorder`
3, 1, 2. -/
def ypC6 : String → Option Metadata :=
  fun s =>
    if s = "A" then some [("title", Value.str "A"), ("navmenu", Value.bool true),
                          ("navorder", Value.int 3)]
    else if s = "B" then some [("title", Value.str "B"), ("navmenu", Value.bool true),
                               ("navorder", Value.int 1)]
    else if s = "C" then some [("title", Value.str "C"), ("navmenu", Value.bool true),
                               ("navorder", Value.int 2)]
    else if s = "D" then some [("title", Value.str "D"), ("navmenu", Value.bool false),
                               ("navorder", Value.int 0)]
    else none

/-- Witness for C6: three sibling pages with `navorder` {3,1,2} (and a
fourth with `navmenu: false`) yield the orders in ascending sequence. -/
theorem nav_sorted_stable_filtered_witness :
    List.Sorted navRel
      [⟨"b.html", Value.str "B", Value.int 1⟩,
       ⟨"c.html", Value.str "C", Value.int 2⟩,
       ⟨"a.html", Value.str "A", Value.int 3⟩] := by
  obtain ⟨scanned, _, _, hsorted, _, _⟩ := nav_sorted_stable_filtered ypC6
    [.file "a.md" "---\nA\n---\n", .file "b.md" "---\nB\n---\n",
     .file "c.md" "---\nC\n---\n", .file "d.md" "---\nD\n---\n"] []
    [⟨"b.html", Value.str "B", Value.int 1⟩,
     ⟨"c.html", Value.str "C", Value.int 2⟩,
     ⟨"a.html", Value.str "A", Value.int 3⟩] rfl
  exact hsorted

/-! ### Claim C7: the containers filter row and item grid -/

mutual
theorem pyEq_refl : ∀ v : Value, pyEq v v = true
  | .null => rfl
  | .bool b => by simp [pyEq]
  | .int n => by simp [pyEq]
  | .str s => by simp [pyEq]
  | .list xs => by simp only [pyEq]; exact pyEqList_refl xs

theorem pyEqList_refl : ∀ xs : List Value, pyEqList xs xs = true
  | [] => rfl
  | x :: xs => by
    simp only [pyEqList, Bool.and_eq_true]
    exact ⟨pyEq_refl x, pyEqList_refl xs⟩
end

theorem dedupAppend_cons (ga : List Value) (g : Value) (gs : List Value) :
    dedupAppend ga (g :: gs) =
      dedupAppend (if ga.any (fun h => pyEq h g) then ga else ga ++ [g]) gs := rfl

theorem dedupAppend_mono : ∀ (gs ga : List Value) (x : Value),
    x ∈ ga → x ∈ dedupAppend ga gs := by
  intro gs
  induction gs with
  | nil => intro ga x hx; exact hx
  | cons g gs' ih =>
    intro ga x hx
    rw [dedupAppend_cons]
    apply ih
    by_cases hany : ga.any (fun h => pyEq h g) = true
    · simp [hany, hx]
    · simp only [hany, if_false]
      simp only [Bool.not_eq_true] at hany
      simp [hany, List.mem_append, hx]

theorem dedupAppend_mem_src : ∀ (gs ga : List Value) (x : Value),
    x ∈ dedupAppend ga gs → x ∈ ga ∨ x ∈ gs := by
  intro gs
  induction gs with
  | nil => intro ga x hx; exact Or.inl hx
  | cons g gs' ih =>
    intro ga x hx
    rw [dedupAppend_cons] at hx
    rcases ih _ x hx with hsrc | htail
    · by_cases hany : ga.any (fun h => pyEq h g) = true
      · rw [if_pos hany] at hsrc; exact Or.inl hsrc
      · rw [if_neg hany] at hsrc
        rcases List.mem_append.mp hsrc with h1 | h1
        · exact Or.inl h1
        · right; simp only [List.mem_singleton] at h1; simp [h1]
    · right; exact List.mem_cons_of_mem _ htail

theorem dedupAppend_pairwise : ∀ (gs ga : List Value),
    List.Pairwise (fun a b => pyEq a b = false) ga →
    List.Pairwise (fun a b => pyEq a b = false) (dedupAppend ga gs) := by
  intro gs
  induction gs with
  | nil => intro ga h; exact h
  | cons g gs' ih =>
    intro ga h
    rw [dedupAppend_cons]
    apply ih
    by_cases hany : ga.any (fun h => pyEq h g) = true
    · simp [hany, h]
    · rw [if_neg hany]
      rw [List.pairwise_append]
      refine ⟨h, List.pairwise_singleton _ _, ?_⟩
      intro a ha b hb
      simp only [List.mem_singleton] at hb
      subst hb
      simp only [List.any_eq_true, Bool.not_eq_true] at hany
      by_cases hf : pyEq a b = false
      · exact hf
      · exact absurd (by push_neg at hany; simpa using hany a ha) (by simp_all)

theorem dedupAppend_represents : ∀ (gs ga : List Value) (g : Value),
    g ∈ gs → ∃ g', g' ∈ dedupAppend ga gs ∧ pyEq g' g = true := by
  intro gs
  induction gs with
  | nil => intro ga g hg; exact absurd hg (List.not_mem_nil g)
  | cons g0 gs' ih =>
    intro ga g hg
    rw [dedupAppend_cons]
    rcases List.mem_cons.mp hg with hhd | htl
    · subst hhd
      by_cases hany : ga.any (fun h => pyEq h g) = true
      · have hany' := hany
        simp only [List.any_eq_true] at hany'
        obtain ⟨a, ha, hpa⟩ := hany'
        refine ⟨a, dedupAppend_mono _ _ _ ?_, hpa⟩
        rw [if_pos hany]
        exact ha
      · refine ⟨g, dedupAppend_mono _ _ _ ?_, pyEq_refl g⟩
        rw [if_neg hany]
        simp
    · exact ih _ g htl

/-- Invariants of the containers fragment scan: accumulated groups
persist; pairwise distinctness (under Python `==`) is preserved; every
group stems from the accumulator or a fragment's `containergroups`;
every tag of every fragment is represented up to Python `==`; and one
item is appended per Markdown-named fragment. -/
theorem contLoop_invariants (yp : String → Option Metadata) :
    ∀ (es : List FSEntry) (ga : List Value) (ia : List String)
      (groups : List Value) (items : List String),
      contLoop yp es ga ia = .ok (groups, items) →
      (∀ g ∈ ga, g ∈ groups)
      ∧ (List.Pairwise (fun a b => pyEq a b = false) ga →
          List.Pairwise (fun a b => pyEq a b = false) groups)
      ∧ (∀ g ∈ groups, g ∈ ga ∨ ∃ n c gs, FSEntry.file n c ∈ es ∧ isMdName n = true ∧
          lookupKey (parse_front_matter yp c).1 "containergroups" = some (.list gs) ∧ g ∈ gs)
      ∧ (∀ n c gs, FSEntry.file n c ∈ es → isMdName n = true →
          lookupKey (parse_front_matter yp c).1 "containergroups" = some (.list gs) →
          ∀ g ∈ gs, ∃ g', g' ∈ groups ∧ pyEq g' g = true)
      ∧ items.length = ia.length + es.countP (fun e => isMdName (FSEntry.name e)) := by
  intro es
  induction es with
  | nil =>
    intro ga ia groups items h
    simp only [contLoop, Except.ok.injEq, Prod.mk.injEq] at h
    obtain ⟨hg, hi⟩ := h
    subst hg; subst hi
    refine ⟨fun g hg => hg, fun h => h, fun g hg => Or.inl hg, ?_, by simp⟩
    intro n c gs hmem
    exact absurd hmem (List.not_mem_nil _)
  | cons e rest ih =>
    intro ga ia groups items h
    by_cases hmd : isMdName (FSEntry.name e) = true
    · cases e with
      | dir n sub =>
        simp only [FSEntry.name] at hmd
        simp [contLoop, FSEntry.name, hmd] at h
      | file n c =>
        simp only [FSEntry.name] at hmd
        simp only [contLoop, FSEntry.name, hmd, if_true] at h
        cases hcg : lookupKey (parse_front_matter yp c).1 "containergroups" with
        | none => rw [hcg] at h; exact absurd h (by simp)
        | some cg =>
          rw [hcg] at h
          cases him : lookupKey (parse_front_matter yp c).1 "containerimage" with
          | none => rw [him] at h; exact absurd h (by simp)
          | some image =>
            rw [him] at h
            cases hat : lookupKey (parse_front_matter yp c).1 "containeralttext" with
            | none => rw [hat] at h; exact absurd h (by simp)
            | some alttext =>
              rw [hat] at h
              cases hlk : lookupKey (parse_front_matter yp c).1 "containerlink" with
              | none => rw [hlk] at h; exact absurd h (by simp)
              | some link =>
                rw [hlk] at h
                cases hti : lookupKey (parse_front_matter yp c).1 "containertitle" with
                | none => rw [hti] at h; exact absurd h (by simp)
                | some title =>
                  rw [hti] at h
                  cases cg with
                  | null => exact absurd h (by simp)
                  | bool b => exact absurd h (by simp)
                  | int m => exact absurd h (by simp)
                  | str s => exact absurd h (by simp)
                  | list gs0 =>
                    simp only [] at h
                    obtain ⟨h1, h2, h3, h4, h5⟩ := ih _ _ _ _ h
                    refine ⟨?_, ?_, ?_, ?_, ?_⟩
                    · intro g hg
                      exact h1 g (dedupAppend_mono _ _ _ hg)
                    · intro hpw
                      exact h2 (dedupAppend_pairwise _ _ hpw)
                    · intro g hg
                      rcases h3 g hg with hin | ⟨n', c', gs', hmem', hmd', hcg', hg'⟩
                      · rcases dedupAppend_mem_src _ _ _ hin with hsrc | htag
                        · exact Or.inl hsrc
                        · exact Or.inr ⟨n, c, gs0, List.mem_cons_self _ _, hmd, hcg, htag⟩
                      · exact Or.inr ⟨n', c', gs', List.mem_cons_of_mem _ hmem', hmd', hcg', hg'⟩
                    · intro n' c' gs' hmem' hmd' hcg' g hg
                      rcases List.mem_cons.mp hmem' with hhd | htl
                      · have hn : n' = n ∧ c' = c := by
                          exact ⟨(FSEntry.file.injEq _ _ _ _).mp hhd |>.1,
                                 (FSEntry.file.injEq _ _ _ _).mp hhd |>.2⟩
                        obtain ⟨hn1, hn2⟩ := hn
                        subst hn1; subst hn2
                        rw [hcg] at hcg'
                        have : gs0 = gs' := by
                          injection hcg' with hv
                          injection hv
                        subst this
                        obtain ⟨g', hg'mem, hg'eq⟩ := dedupAppend_represents gs0 ga g hg
                        exact ⟨g', h1 g' hg'mem, hg'eq⟩
                      · exact h4 n' c' gs' htl hmd' hcg' g hg
                    · rw [h5]
                      simp [List.countP_cons, FSEntry.name, hmd]
                      omega
    · have hstep : contLoop yp (e :: rest) ga ia = contLoop yp rest ga ia := by
        cases e with
        | dir n sub =>
          simp only [FSEntry.name] at hmd
          simp [contLoop, FSEntry.name, hmd]
        | file n c =>
          simp only [FSEntry.name] at hmd
          simp [contLoop, FSEntry.name, hmd]
      rw [hstep] at h
      obtain ⟨h1, h2, h3, h4, h5⟩ := ih _ _ _ _ h
      refine ⟨h1, h2, ?_, ?_, ?_⟩
      · intro g hg
        rcases h3 g hg with hin | ⟨n', c', gs', hmem', hmd', hcg', hg'⟩
        · exact Or.inl hin
        · exact Or.inr ⟨n', c', gs', List.mem_cons_of_mem _ hmem', hmd', hcg', hg'⟩
      · intro n' c' gs' hmem' hmd' hcg' g hg
        rcases List.mem_cons.mp hmem' with hhd | htl
        · subst hhd
          simp only [FSEntry.name] at hmd
          exact absurd hmd' hmd
        · exact h4 n' c' gs' htl hmd' hcg' g hg
      · rw [h5]
        simp [List.countP_cons, hmd]

/-- C7: over a containers directory the assembler emits the filter-button
row — the synthetic, active-by-default All button first, then one button
per deduplicated group tag in ascending order — followed by the item
grid, whose items appear in directory-listing order with exactly one item
per Markdown fragment file regardless of group overlap; the group set is
duplicate-free under Python `==`, stems entirely from the fragments'
`containergroups`, and represents every tag seen. -/
theorem containers_buttons_and_items (yp : String → Option Metadata)
    (es : List FSEntry) (groups : List Value) (items : List String)
    (h : contLoop yp es [] [] = .ok (groups, items)) :
    generate_containers_markdown yp (some es) = .ok (some
      ("\n\t\t\t<div class=\"filter-buttons\">" ++
       String.join (allFilterButton ::
         (List.insertionSort valRel groups).map mkFilterButton) ++
       "\n\t\t\t</div>" ++
       "\n\t\t\t<div class=\"items-container\">" ++ String.join items ++ "\n\t\t\t</div>"))
    ∧ List.Pairwise (fun a b => pyEq a b = false) groups
    ∧ (∀ g ∈ groups, ∃ n c gs, FSEntry.file n c ∈ es ∧ isMdName n = true ∧
        lookupKey (parse_front_matter yp c).1 "containergroups" = some (.list gs) ∧ g ∈ gs)
    ∧ (∀ n c gs, FSEntry.file n c ∈ es → isMdName n = true →
        lookupKey (parse_front_matter yp c).1 "containergroups" = some (.list gs) →
        ∀ g ∈ gs, ∃ g', g' ∈ groups ∧ pyEq g' g = true)
    ∧ items.length = es.countP (fun e => isMdName (FSEntry.name e)) := by
  obtain ⟨h1, h2, h3, h4, h5⟩ := contLoop_invariants yp es [] [] groups items h
  refine ⟨?_, h2 (List.Pairwise.nil), ?_, h4, by simpa using h5⟩
  · simp [generate_containers_markdown, h, assembleContainers]
  · intro g hg
    rcases h3 g hg with hin | hsrc
    · exact absurd hin (List.not_mem_nil g)
    · exact hsrc

/-- Concrete YAML stub for the C7 witness: fragments with groups
`["a"]`, `["b"]` and `["a","b"]`. -/
def ypC7 : String → Option Metadata :=
  fun s =>
    if s = "F1" then
      some [("containergroups", Value.list [Value.str "a"]),
            ("containerimage", Value.str "i1"), ("containeralttext", Value.str "t1"),
            ("containerlink", Value.str "l1"), ("containertitle", Value.str "T1")]
    else if s = "F2" then
      some [("containergroups", Value.list [Value.str "b"]),
            ("containerimage", Value.str "i2"), ("containeralttext", Value.str "t2"),
            ("containerlink", Value.str "l2"), ("containertitle", Value.str "T2")]
    else if s = "F3" then
      some [("containergroups", Value.list [Value.str "a", Value.str "b"]),
            ("containerimage", Value.str "i3"), ("containeralttext", Value.str "t3"),
            ("containerlink", Value.str "l3"), ("containertitle", Value.str "T3")]
    else none

/-- The three fragment files of the C7 witness. -/
def esC7 : List FSEntry :=
  [.file "f1.md" "---\nF1\n---\n", .file "f2.md" "---\nF2\n---\n",
   .file "f3.md" "---\nF3\n---\n"]

/-- Witness for C7: the example from the specification — fragments with
`containergroups` `["a"]`, `["b"]`, `["a","b"]` give the button row
All, a, b in that order and three items. -/
theorem containers_buttons_and_items_witness :
    generate_containers_markdown ypC7 (some esC7) = .ok (some
      ("\n\t\t\t<div class=\"filter-buttons\">" ++
       String.join (allFilterButton ::
         (List.insertionSort valRel [Value.str "a", Value.str "b"]).map mkFilterButton) ++
       "\n\t\t\t</div>" ++
       "\n\t\t\t<div class=\"items-container\">" ++
       String.join
         [mkContainerItem (jsonDumps (.list [Value.str "a"])) "l1" "i1" "t1" "T1",
          mkContainerItem (jsonDumps (.list [Value.str "b"])) "l2" "i2" "t2" "T2",
          mkContainerItem (jsonDumps (.list [Value.str "a", Value.str "b"])) "l3" "i3" "t3" "T3"] ++
       "\n\t\t\t</div>"))
    ∧ ([mkContainerItem (jsonDumps (.list [Value.str "a"])) "l1" "i1" "t1" "T1",
        mkContainerItem (jsonDumps (.list [Value.str "b"])) "l2" "i2" "t2" "T2",
        mkContainerItem (jsonDumps (.list [Value.str "a", Value.str "b"])) "l3" "i3" "t3" "T3"].length
       = 3) :=
  ⟨(containers_buttons_and_items ypC7 esC7 [Value.str "a", Value.str "b"]
      [mkContainerItem (jsonDumps (.list [Value.str "a"])) "l1" "i1" "t1" "T1",
       mkContainerItem (jsonDumps (.list [Value.str "b"])) "l2" "i2" "t2" "T2",
       mkContainerItem (jsonDumps (.list [Value.str "a", Value.str "b"])) "l3" "i3" "t3" "T3"]
      rfl).1,
   (containers_buttons_and_items ypC7 esC7 [Value.str "a", Value.str "b"]
      [mkContainerItem (jsonDumps (.list [Value.str "a"])) "l1" "i1" "t1" "T1",
       mkContainerItem (jsonDumps (.list [Value.str "b"])) "l2" "i2" "t2" "T2",
       mkContainerItem (jsonDumps (.list [Value.str "a", Value.str "b"])) "l3" "i3" "t3" "T3"]
      rfl).2.2.2.2⟩

/-! ### Claim C8: tree mirroring and the relative-root prefix -/

/-- `k` copies of the parent-reference token. -/
def repParent : Nat → String
  | 0 => ""
  | k + 1 => "../" ++ repParent k

/-- Join a chain of directory names onto a base path. -/
def pathJoinAll (base : String) : List String → String
  | [] => base
  | d :: ds => pathJoinAll (pathJoin base d) ds

/-- The chain of subdirectories named by `ds` exists in the source
listing `es` and its innermost listing is `sub`. -/
def hasDirPath : List FSEntry → List String → List FSEntry → Prop
  | es, [], sub => sub = es
  | es, d :: ds, sub => ∃ s, FSEntry.dir d s ∈ es ∧ hasDirPath s ds sub

/-- The chain of subdirectories named by `ds` exists in the JSON listing
`es` and its innermost listing is `sub`. -/
def hasJDirPath : List JEntry → List String → List JEntry → Prop
  | es, [], sub => sub = es
  | es, d :: ds, sub => ∃ s, JEntry.dir d s ∈ es ∧ hasJDirPath s ds sub

theorem str_append_empty (s : String) : s ++ "" = s := by
  cases s with
  | mk data =>
    show String.mk (data ++ []) = String.mk data
    rw [List.append_nil]

theorem str_append_assoc (a b c : String) : a ++ b ++ c = a ++ (b ++ c) := by
  cases a with
  | mk da =>
    cases b with
    | mk db =>
      cases c with
      | mk dc =>
        show String.mk (da ++ db ++ dc) = String.mk (da ++ (db ++ dc))
        rw [List.append_assoc]

theorem genOut_append_assoc (a b c : GenOut) :
    (a.append b).append c = a.append (b.append c) := by
  simp [GenOut.append, List.append_assoc]

theorem renderOut_append_assoc (a b c : RenderOut) :
    (a.append b).append c = a.append (b.append c) := by
  simp [RenderOut.append, List.append_assoc]

/-- The generator loop only extends its accumulator. -/
theorem genLoop_acc_ext (yp : String → Option Metadata) (md : String → String) :
    ∀ (rem full : List FSEntry) (jd : String) (nav : List NavLink)
      (rp : String) (acc : GenOut),
      ∃ ext, (genLoop yp md full rem jd nav rp acc).1 = acc.append ext := by
  intro rem
  induction rem with
  | nil =>
    intro full jd nav rp acc
    refine ⟨⟨[], []⟩, ?_⟩
    rw [genLoop]
    simp [GenOut.append]
  | cons e rest ih =>
    intro full jd nav rp acc
    cases e with
    | dir n sub =>
      rw [genLoop]
      cases hr : (generate_data yp md sub (pathJoin jd n) nav (rp ++ "../")).2.2 with
      | some err => exact ⟨_, rfl⟩
      | none =>
        by_cases hmd : isMdName n = true
        · simp only [hmd, if_true]
          exact ⟨_, rfl⟩
        · simp only [hmd, Bool.false_eq_true, if_false]
          obtain ⟨ext2, hext2⟩ := ih full jd
            (generate_data yp md sub (pathJoin jd n) nav (rp ++ "../")).2.1 rp
            (acc.append (generate_data yp md sub (pathJoin jd n) nav (rp ++ "../")).1)
          exact ⟨_, by rw [hext2, genOut_append_assoc]⟩
    | file n c =>
      rw [genLoop]
      by_cases hmd : isMdName n = true
      · simp only [hmd, if_true]
        cases hp : processPage yp md full jd nav rp n c with
        | ok wf =>
          obtain ⟨ext2, hext2⟩ := ih full jd nav rp (acc.append ⟨[], [wf]⟩)
          exact ⟨_, by rw [hext2, genOut_append_assoc]⟩
        | error err => exact ⟨⟨[], []⟩, by simp [GenOut.append]⟩
      · simp only [hmd, if_false]
        exact ih full jd nav rp acc

/-- The destination directory is always created (recorded first). -/
theorem generate_data_jd_mem (yp : String → Option Metadata) (md : String → String)
    (es : List FSEntry) (jd : String) (nav : List NavLink) (rp : String) :
    jd ∈ (generate_data yp md es jd nav rp).1.dirs := by
  rw [generate_data]
  cases hn : generate_navigation_links yp es nav with
  | error e => simp
  | ok nav' =>
    obtain ⟨ext, hext⟩ := genLoop_acc_ext yp md es es jd nav' rp ⟨[jd], []⟩
    rw [hext]
    simp [GenOut.append]

/-- A successful generator run is the loop run on the scanned navigation
list. -/
theorem generate_data_ok_parts (yp : String → Option Metadata) (md : String → String)
    (es : List FSEntry) (jd : String) (nav : List NavLink) (rp : String)
    (h : (generate_data yp md es jd nav rp).2.2 = none) :
    ∃ nav', generate_navigation_links yp es nav = .ok nav' ∧
      generate_data yp md es jd nav rp = genLoop yp md es es jd nav' rp ⟨[jd], []⟩ := by
  cases hn : generate_navigation_links yp es nav with
  | error e =>
    rw [generate_data, hn] at h
    simp at h
  | ok nav' =>
    refine ⟨nav', rfl, ?_⟩
    rw [generate_data, hn]

/-- When the generator loop finishes without an exception, every
subdirectory entry of the remaining listing was recursed into — with the
destination deepened by its name, some state of the shared navigation
list, and the relative-root prefix extended by one `../` — successfully,
and that recursion's output is contained in the loop's output. -/
theorem genLoop_dir_subcall (yp : String → Option Metadata) (md : String → String) :
    ∀ (rem full : List FSEntry) (jd : String) (nav : List NavLink)
      (rp : String) (acc : GenOut),
      (genLoop yp md full rem jd nav rp acc).2.2 = none →
      ∀ n sub, FSEntry.dir n sub ∈ rem →
      ∃ nav', (generate_data yp md sub (pathJoin jd n) nav' (rp ++ "../")).2.2 = none
        ∧ (∀ d ∈ (generate_data yp md sub (pathJoin jd n) nav' (rp ++ "../")).1.dirs,
            d ∈ (genLoop yp md full rem jd nav rp acc).1.dirs)
        ∧ (∀ f ∈ (generate_data yp md sub (pathJoin jd n) nav' (rp ++ "../")).1.files,
            f ∈ (genLoop yp md full rem jd nav rp acc).1.files) := by
  intro rem
  induction rem with
  | nil =>
    intro full jd nav rp acc _ n sub hmem
    exact absurd hmem (List.not_mem_nil _)
  | cons e rest ih =>
    intro full jd nav rp acc herr n sub hmem
    cases e with
    | dir n0 sub0 =>
      rw [genLoop] at herr ⊢
      cases hr : (generate_data yp md sub0 (pathJoin jd n0) nav (rp ++ "../")).2.2 with
      | some err => simp [hr] at herr
      | none =>
        by_cases hmd : isMdName n0 = true
        · simp [hr, hmd] at herr
        · simp only [hr, hmd, Bool.false_eq_true, if_false] at herr ⊢
          rcases List.mem_cons.mp hmem with hhd | htl
          · injection hhd with hn1 hn2
            subst hn1; subst hn2
            refine ⟨nav, hr, ?_, ?_⟩
            · intro d hd
              obtain ⟨ext, hext⟩ := genLoop_acc_ext yp md rest full jd
                (generate_data yp md sub (pathJoin jd n) nav (rp ++ "../")).2.1 rp
                (acc.append (generate_data yp md sub (pathJoin jd n) nav (rp ++ "../")).1)
              rw [hext]
              simp only [GenOut.append, List.mem_append]
              left; right; exact hd
            · intro f hf
              obtain ⟨ext, hext⟩ := genLoop_acc_ext yp md rest full jd
                (generate_data yp md sub (pathJoin jd n) nav (rp ++ "../")).2.1 rp
                (acc.append (generate_data yp md sub (pathJoin jd n) nav (rp ++ "../")).1)
              rw [hext]
              simp only [GenOut.append, List.mem_append]
              left; right; exact hf
          · exact ih full jd _ rp _ herr n sub htl
    | file n0 c0 =>
      rw [genLoop] at herr ⊢
      by_cases hmd : isMdName n0 = true
      · simp only [hmd, if_true] at herr ⊢
        cases hp : processPage yp md full jd nav rp n0 c0 with
        | ok wf =>
          rw [hp] at herr
          rcases List.mem_cons.mp hmem with hhd | htl
          · exact absurd hhd (by simp)
          · exact ih full jd nav rp _ herr n sub htl
        | error err => rw [hp] at herr; simp at herr
      · simp only [hmd, Bool.false_eq_true, if_false] at herr ⊢
        rcases List.mem_cons.mp hmem with hhd | htl
        · exact absurd hhd (by simp)
        · exact ih full jd nav rp acc herr n sub htl

/-- Mirroring for the Data Generator: along every existing subdirectory
chain `ds` of depth `D`, a successful run contains a successful recursive
run rooted at the mirrored destination `pathJoinAll jd ds`, invoked with
the relative-root prefix extended by exactly `D` copies of `../`; its
output is contained in the parent's output and the mirrored destination
directory is created. -/
theorem gen_mirror (yp : String → Option Metadata) (md : String → String) :
    ∀ (ds : List String) (es sub : List FSEntry) (jd : String)
      (nav : List NavLink) (rp : String),
      hasDirPath es ds sub →
      (generate_data yp md es jd nav rp).2.2 = none →
      ∃ nav',
        (generate_data yp md sub (pathJoinAll jd ds) nav'
            (rp ++ repParent ds.length)).2.2 = none
        ∧ (∀ d ∈ (generate_data yp md sub (pathJoinAll jd ds) nav'
              (rp ++ repParent ds.length)).1.dirs,
            d ∈ (generate_data yp md es jd nav rp).1.dirs)
        ∧ (∀ f ∈ (generate_data yp md sub (pathJoinAll jd ds) nav'
              (rp ++ repParent ds.length)).1.files,
            f ∈ (generate_data yp md es jd nav rp).1.files)
        ∧ pathJoinAll jd ds ∈ (generate_data yp md es jd nav rp).1.dirs := by
  intro ds
  induction ds with
  | nil =>
    intro es sub jd nav rp hpath herr
    have hsub : sub = es := hpath
    subst hsub
    simp only [List.length_nil, pathJoinAll, repParent]
    rw [str_append_empty rp]
    exact ⟨nav, herr, fun d hd => hd, fun f hf => hf,
      generate_data_jd_mem yp md sub jd nav rp⟩
  | cons d ds ih =>
    intro es sub jd nav rp hpath herr
    obtain ⟨s, hmem, hrest⟩ := hpath
    obtain ⟨nav₁, hscan, hshape⟩ := generate_data_ok_parts yp md es jd nav rp herr
    rw [hshape] at herr
    obtain ⟨nav₂, hchild, hdirs, hfiles⟩ :=
      genLoop_dir_subcall yp md es es jd nav₁ rp ⟨[jd], []⟩ herr d s hmem
    obtain ⟨nav₃, h1, h2, h3, h4⟩ :=
      ih s sub (pathJoin jd d) nav₂ (rp ++ "../") hrest hchild
    have hrp : rp ++ "../" ++ repParent ds.length = rp ++ repParent (ds.length + 1) := by
      rw [str_append_assoc]
      rfl
    rw [hrp] at h1 h2 h3
    have hpj : pathJoinAll (pathJoin jd d) ds = pathJoinAll jd (d :: ds) := rfl
    rw [hpj] at h1 h2 h3 h4
    rw [hshape]
    refine ⟨nav₃, ?_, ?_, ?_, ?_⟩
    · simpa using h1
    · intro x hx
      exact hdirs x (h2 x hx)
    · intro x hx
      exact hfiles x (h3 x hx)
    · exact hdirs _ h4

/-- The renderer loop only extends its accumulator. -/
theorem renderLoop_acc_ext (templates : List (String × String)) :
    ∀ (rem : List JEntry) (od rp : String) (acc : RenderOut),
      ∃ ext, (renderLoop templates rem od rp acc).1 = acc.append ext := by
  intro rem
  induction rem with
  | nil =>
    intro od rp acc
    refine ⟨⟨[], []⟩, ?_⟩
    rw [renderLoop]
    simp [RenderOut.append]
  | cons e rest ih =>
    intro od rp acc
    cases e with
    | dir n sub =>
      rw [renderLoop]
      cases hr : (render_site templates sub (pathJoin od n) (rp ++ "../")).2 with
      | some err => exact ⟨_, rfl⟩
      | none =>
        by_cases hj : strEndsWith n ".json" = true
        · simp only [hj, if_true]
          exact ⟨_, rfl⟩
        · simp only [hj, Bool.false_eq_true, if_false]
          obtain ⟨ext2, hext2⟩ := ih od rp
            (acc.append (render_site templates sub (pathJoin od n) (rp ++ "../")).1)
          exact ⟨_, by rw [hext2, renderOut_append_assoc]⟩
    | file n pd =>
      rw [renderLoop]
      by_cases hj : strEndsWith n ".json" = true
      · simp only [hj, if_true]
        cases hlt : layoutTemplateName pd with
        | error err => exact ⟨⟨[], []⟩, by simp [RenderOut.append]⟩
        | ok tn =>
          dsimp only
          cases htm : lookupStr templates tn with
          | none => exact ih od rp acc
          | some tmpl =>
            dsimp only
            cases hsub : templateSubstitute (withDefaults pd rp) tmpl with
            | ok html =>
              obtain ⟨ext2, hext2⟩ := ih od rp
                (acc.append ⟨[], [(pathJoin od (splitextBase n ++ ".html"), html)]⟩)
              exact ⟨_, by rw [hext2, renderOut_append_assoc]⟩
            | error err =>
              cases err with
              | keyError k => exact ih od rp acc
              | isADirectoryError m => exact ⟨⟨[], []⟩, by simp [RenderOut.append]⟩
              | typeError m => exact ⟨⟨[], []⟩, by simp [RenderOut.append]⟩
              | valueError m => exact ⟨⟨[], []⟩, by simp [RenderOut.append]⟩
      · simp only [hj, Bool.false_eq_true, if_false]
        exact ih od rp acc

/-- The output directory is always created (recorded first). -/
theorem render_site_od_mem (templates : List (String × String))
    (jes : List JEntry) (od rp : String) :
    od ∈ (render_site templates jes od rp).1.dirs := by
  rw [render_site]
  obtain ⟨ext, hext⟩ := renderLoop_acc_ext templates jes od rp ⟨[od], []⟩
  rw [hext]
  simp [RenderOut.append]

/-- When the renderer loop finishes without an exception, every
subdirectory entry of the remaining listing was recursed into — with the
output path deepened by its name and the relative-root prefix extended by
one `../` — successfully, and that recursion's output is contained in the
loop's output. -/
theorem renderLoop_dir_subcall (templates : List (String × String)) :
    ∀ (rem : List JEntry) (od rp : String) (acc : RenderOut),
      (renderLoop templates rem od rp acc).2 = none →
      ∀ n sub, JEntry.dir n sub ∈ rem →
      (render_site templates sub (pathJoin od n) (rp ++ "../")).2 = none
        ∧ (∀ d ∈ (render_site templates sub (pathJoin od n) (rp ++ "../")).1.dirs,
            d ∈ (renderLoop templates rem od rp acc).1.dirs)
        ∧ (∀ f ∈ (render_site templates sub (pathJoin od n) (rp ++ "../")).1.files,
            f ∈ (renderLoop templates rem od rp acc).1.files) := by
  intro rem
  induction rem with
  | nil =>
    intro od rp acc _ n sub hmem
    exact absurd hmem (List.not_mem_nil _)
  | cons e rest ih =>
    intro od rp acc herr n sub hmem
    cases e with
    | dir n0 sub0 =>
      rw [renderLoop] at herr ⊢
      cases hr : (render_site templates sub0 (pathJoin od n0) (rp ++ "../")).2 with
      | some err => simp [hr] at herr
      | none =>
        by_cases hj : strEndsWith n0 ".json" = true
        · simp [hr, hj] at herr
        · simp only [hr, hj, Bool.false_eq_true, if_false] at herr ⊢
          rcases List.mem_cons.mp hmem with hhd | htl
          · injection hhd with hn1 hn2
            subst hn1; subst hn2
            refine ⟨hr, ?_, ?_⟩
            · intro x hx
              obtain ⟨ext, hext⟩ := renderLoop_acc_ext templates rest od rp
                (acc.append (render_site templates sub (pathJoin od n) (rp ++ "../")).1)
              rw [hext]
              simp only [RenderOut.append, List.mem_append]
              left; right; exact hx
            · intro x hx
              obtain ⟨ext, hext⟩ := renderLoop_acc_ext templates rest od rp
                (acc.append (render_site templates sub (pathJoin od n) (rp ++ "../")).1)
              rw [hext]
              simp only [RenderOut.append, List.mem_append]
              left; right; exact hx
          · exact ih od rp _ herr n sub htl
    | file n0 pd0 =>
      have htl : JEntry.dir n sub ∈ rest := by
        rcases List.mem_cons.mp hmem with hhd | htl
        · exact absurd hhd (by simp)
        · exact htl
      by_cases hj : strEndsWith n0 ".json" = true
      · cases hlt : layoutTemplateName pd0 with
        | error err =>
          have hstep : renderLoop templates (JEntry.file n0 pd0 :: rest) od rp acc =
              (acc, some err) := by
            rw [renderLoop]; simp [hj, hlt]
          rw [hstep] at herr
          simp at herr
        | ok tn =>
          cases htm : lookupStr templates tn with
          | none =>
            have hstep : renderLoop templates (JEntry.file n0 pd0 :: rest) od rp acc =
                renderLoop templates rest od rp acc := by
              rw [renderLoop]; simp [hj, hlt, htm]
            rw [hstep] at herr ⊢
            exact ih od rp acc herr n sub htl
          | some tmpl =>
            cases hsub : templateSubstitute (withDefaults pd0 rp) tmpl with
            | ok html =>
              have hstep : renderLoop templates (JEntry.file n0 pd0 :: rest) od rp acc =
                  renderLoop templates rest od rp
                    (acc.append ⟨[], [(pathJoin od (splitextBase n0 ++ ".html"), html)]⟩) := by
                rw [renderLoop]; simp [hj, hlt, htm, hsub]
              rw [hstep] at herr ⊢
              exact ih od rp _ herr n sub htl
            | error err =>
              cases err with
              | keyError k =>
                have hstep : renderLoop templates (JEntry.file n0 pd0 :: rest) od rp acc =
                    renderLoop templates rest od rp acc := by
                  rw [renderLoop]; simp [hj, hlt, htm, hsub]
                rw [hstep] at herr ⊢
                exact ih od rp acc herr n sub htl
              | isADirectoryError m =>
                have hstep : renderLoop templates (JEntry.file n0 pd0 :: rest) od rp acc =
                    (acc, some (.isADirectoryError m)) := by
                  rw [renderLoop]; simp [hj, hlt, htm, hsub]
                rw [hstep] at herr
                simp at herr
              | typeError m =>
                have hstep : renderLoop templates (JEntry.file n0 pd0 :: rest) od rp acc =
                    (acc, some (.typeError m)) := by
                  rw [renderLoop]; simp [hj, hlt, htm, hsub]
                rw [hstep] at herr
                simp at herr
              | valueError m =>
                have hstep : renderLoop templates (JEntry.file n0 pd0 :: rest) od rp acc =
                    (acc, some (.valueError m)) := by
                  rw [renderLoop]; simp [hj, hlt, htm, hsub]
                rw [hstep] at herr
                simp at herr
      · have hstep : renderLoop templates (JEntry.file n0 pd0 :: rest) od rp acc =
            renderLoop templates rest od rp acc := by
          rw [renderLoop]; simp [hj]
        rw [hstep] at herr ⊢
        exact ih od rp acc herr n sub htl

/-- Mirroring for the Site Renderer: along every existing subdirectory
chain `ds` of depth `D`, a successful run contains a successful recursive
run rooted at the mirrored output path `pathJoinAll od ds`, invoked with
the relative-root prefix extended by exactly `D` copies of `../`; its
output is contained in the parent's output and the mirrored output
directory is created. -/
theorem render_mirror (templates : List (String × String)) :
    ∀ (ds : List String) (jes sub : List JEntry) (od rp : String),
      hasJDirPath jes ds sub →
      (render_site templates jes od rp).2 = none →
      (render_site templates sub (pathJoinAll od ds) (rp ++ repParent ds.length)).2 = none
      ∧ (∀ d ∈ (render_site templates sub (pathJoinAll od ds)
            (rp ++ repParent ds.length)).1.dirs,
          d ∈ (render_site templates jes od rp).1.dirs)
      ∧ (∀ f ∈ (render_site templates sub (pathJoinAll od ds)
            (rp ++ repParent ds.length)).1.files,
          f ∈ (render_site templates jes od rp).1.files)
      ∧ pathJoinAll od ds ∈ (render_site templates jes od rp).1.dirs := by
  intro ds
  induction ds with
  | nil =>
    intro jes sub od rp hpath herr
    have hsub : sub = jes := hpath
    subst hsub
    simp only [List.length_nil, pathJoinAll, repParent]
    rw [str_append_empty rp]
    exact ⟨herr, fun d hd => hd, fun f hf => hf,
      render_site_od_mem templates sub od rp⟩
  | cons d ds ih =>
    intro jes sub od rp hpath herr
    obtain ⟨s, hmem, hrest⟩ := hpath
    have hunfold : render_site templates jes od rp =
        renderLoop templates jes od rp ⟨[od], []⟩ := by
      rw [render_site]
    rw [hunfold] at herr
    obtain ⟨hchild, hdirs, hfiles⟩ :=
      renderLoop_dir_subcall templates jes od rp ⟨[od], []⟩ herr d s hmem
    obtain ⟨h1, h2, h3, h4⟩ := ih s sub (pathJoin od d) (rp ++ "../") hrest hchild
    have hrp : rp ++ "../" ++ repParent ds.length = rp ++ repParent (ds.length + 1) := by
      rw [str_append_assoc]
      rfl
    rw [hrp] at h1 h2 h3
    have hpj : pathJoinAll (pathJoin od d) ds = pathJoinAll od (d :: ds) := rfl
    rw [hpj] at h1 h2 h3 h4
    rw [hunfold]
    refine ⟨?_, ?_, ?_, ?_⟩
    · simpa using h1
    · intro x hx
      exact hdirs x (h2 x hx)
    · intro x hx
      exact hfiles x (h3 x hx)
    · exact hdirs _ h4

/-- C8: recursion mirrors the directory structure exactly — for every
chain of subdirectories of depth `D` in the source (resp. JSON) tree, a
successful Data Generator (resp. Site Renderer) run creates a directory
at the same relative path in the JSON (resp. output) tree, by running the
recursion rooted there with the relative-root prefix extended by exactly
`D` occurrences of `../`, one per level, and keeping that recursion's
output inside its own. -/
theorem tree_mirroring_and_relroot :
    (∀ (yp : String → Option Metadata) (md : String → String)
        (ds : List String) (es sub : List FSEntry) (jd : String)
        (nav : List NavLink) (rp : String),
      hasDirPath es ds sub →
      (generate_data yp md es jd nav rp).2.2 = none →
      ∃ nav',
        (generate_data yp md sub (pathJoinAll jd ds) nav'
            (rp ++ repParent ds.length)).2.2 = none
        ∧ (∀ d ∈ (generate_data yp md sub (pathJoinAll jd ds) nav'
              (rp ++ repParent ds.length)).1.dirs,
            d ∈ (generate_data yp md es jd nav rp).1.dirs)
        ∧ (∀ f ∈ (generate_data yp md sub (pathJoinAll jd ds) nav'
              (rp ++ repParent ds.length)).1.files,
            f ∈ (generate_data yp md es jd nav rp).1.files)
        ∧ pathJoinAll jd ds ∈ (generate_data yp md es jd nav rp).1.dirs)
    ∧ (∀ (templates : List (String × String)) (ds : List String)
        (jes sub : List JEntry) (od rp : String),
      hasJDirPath jes ds sub →
      (render_site templates jes od rp).2 = none →
      (render_site templates sub (pathJoinAll od ds) (rp ++ repParent ds.length)).2 = none
      ∧ (∀ d ∈ (render_site templates sub (pathJoinAll od ds)
            (rp ++ repParent ds.length)).1.dirs,
          d ∈ (render_site templates jes od rp).1.dirs)
      ∧ (∀ f ∈ (render_site templates sub (pathJoinAll od ds)
            (rp ++ repParent ds.length)).1.files,
          f ∈ (render_site templates jes od rp).1.files)
      ∧ pathJoinAll od ds ∈ (render_site templates jes od rp).1.dirs) :=
  ⟨fun yp md ds es sub jd nav rp hpath herr =>
      gen_mirror yp md ds es sub jd nav rp hpath herr,
   fun templates ds jes sub od rp hpath herr =>
      render_mirror templates ds jes sub od rp hpath herr⟩

/-- Witness for C8 at a depth-one chain: the generator on `[dir d]`
creates `j/d` and uses the prefix `./` extended once; the renderer on the
mirrored JSON tree creates `o/d` likewise. -/
theorem tree_mirroring_and_relroot_witness :
    (∃ nav', (generate_data (fun _ => (none : Option Metadata)) (fun s => s) []
          (pathJoinAll "j" ["d"]) nav' ("./" ++ repParent 1)).2.2 = none
      ∧ (∀ d ∈ (generate_data (fun _ => (none : Option Metadata)) (fun s => s) []
            (pathJoinAll "j" ["d"]) nav' ("./" ++ repParent 1)).1.dirs,
          d ∈ (generate_data (fun _ => (none : Option Metadata)) (fun s => s)
            [.dir "d" []] "j" [] "./").1.dirs)
      ∧ (∀ f ∈ (generate_data (fun _ => (none : Option Metadata)) (fun s => s) []
            (pathJoinAll "j" ["d"]) nav' ("./" ++ repParent 1)).1.files,
          f ∈ (generate_data (fun _ => (none : Option Metadata)) (fun s => s)
            [.dir "d" []] "j" [] "./").1.files)
      ∧ pathJoinAll "j" ["d"] ∈ (generate_data (fun _ => (none : Option Metadata))
          (fun s => s) [.dir "d" []] "j" [] "./").1.dirs)
    ∧ ((render_site [] [] (pathJoinAll "o" ["d"]) ("./" ++ repParent 1)).2 = none
      ∧ (∀ d ∈ (render_site [] [] (pathJoinAll "o" ["d"]) ("./" ++ repParent 1)).1.dirs,
          d ∈ (render_site [] [.dir "d" []] "o" "./").1.dirs)
      ∧ (∀ f ∈ (render_site [] [] (pathJoinAll "o" ["d"]) ("./" ++ repParent 1)).1.files,
          f ∈ (render_site [] [.dir "d" []] "o" "./").1.files)
      ∧ pathJoinAll "o" ["d"] ∈ (render_site [] [.dir "d" []] "o" "./").1.dirs) := by
  constructor
  · apply tree_mirroring_and_relroot.1 (fun _ => (none : Option Metadata)) (fun s => s)
      ["d"] [.dir "d" []] [] "j" [] "./" ⟨[], List.mem_singleton.mpr rfl, rfl⟩
    simp +decide [generate_data, genLoop.eq_def, generate_navigation_links, navLoop,
      FSEntry.name]
  · apply tree_mirroring_and_relroot.2 [] ["d"] [.dir "d" []] [] "o" "./"
      ⟨[], List.mem_singleton.mpr rfl, rfl⟩
    simp +decide [render_site, renderLoop.eq_def, JEntry.name]

end SiteGen
